import Mathlib

/-!
The Dark Crystal: kinematic character controller.

A shallow embedding of `src/main/Character.cpp`.

Modelling conventions.

* Scalars (`float`, `double`, `btScalar`, `Ogre::Real`) are exact rationals; rounding,
  infinities and NaN are outside the model.
* The engine objects the controller only holds handles to (mesh, sound channels, physics
  world, scene node) are modelled by the few observations the controller makes of them.
  What the controller reads from them during one call is gathered in `World`.
* `Node::onUpdate`, which ends `Character::onUpdate`, belongs to the engine and is not part
  of the embedding.
-/

namespace DarkCrystal

/-! ## Vectors, quaternions, transforms -/

/-- Three scalars: stands for both `Ogre::Vector3` and `btVector3`. -/
structure Vec3 where
  x : ℚ
  y : ℚ
  z : ℚ
deriving DecidableEq

namespace Vec3

/-- The vector `Ogre::Vector3::ZERO`. -/
def zero : Vec3 := ⟨0, 0, 0⟩

/-- Componentwise sum. -/
def add (a b : Vec3) : Vec3 := ⟨a.x + b.x, a.y + b.y, a.z + b.z⟩

/-- Componentwise difference. -/
def sub (a b : Vec3) : Vec3 := ⟨a.x - b.x, a.y - b.y, a.z - b.z⟩

/-- Product with a scalar. -/
def scale (a : Vec3) (k : ℚ) : Vec3 := ⟨a.x * k, a.y * k, a.z * k⟩

/-- Cross product, as `Ogre::Vector3::crossProduct`. -/
def crossProduct (a b : Vec3) : Vec3 :=
  ⟨a.y * b.z - a.z * b.y, a.z * b.x - a.x * b.z, a.x * b.y - a.y * b.x⟩

/-- Squared length. -/
def length2 (a : Vec3) : ℚ := a.x * a.x + a.y * a.y + a.z * a.z

/-- Test `btVector3::isZero`: all three components compare equal to zero. -/
def isZero (a : Vec3) : Bool := decide (a.x = 0) && decide (a.y = 0) && decide (a.z = 0)

/-- Length, through the square root of the math library. -/
def length (sqrt : ℚ → ℚ) (a : Vec3) : ℚ := sqrt a.length2

/-- In-place `Ogre::Vector3::normalise`: scales by the inverse length when the length
exceeds `1e-08`, and otherwise changes nothing. -/
def normalise (sqrt : ℚ → ℚ) (a : Vec3) : Vec3 :=
  if a.length sqrt > 1 / 100000000 then a.scale (1 / a.length sqrt) else a

/-- In-place `btVector3::normalize`: divides by the length, with no guard. -/
def normalize (sqrt : ℚ → ℚ) (a : Vec3) : Vec3 := a.scale (1 / a.length sqrt)

end Vec3

/-- Rotation `Ogre::Quaternion` (also `btQuaternion`). -/
structure Quaternion where
  w : ℚ
  x : ℚ
  y : ℚ
  z : ℚ
deriving DecidableEq

namespace Quaternion

/-- The rotation `Ogre::Quaternion::IDENTITY`. -/
def identity : Quaternion := ⟨1, 0, 0, 0⟩

/-- Rotation of a vector, `Ogre::Quaternion::operator*(const Vector3&)`. -/
def rotate (q : Quaternion) (v : Vec3) : Vec3 :=
  let qvec : Vec3 := ⟨q.x, q.y, q.z⟩
  let uv := qvec.crossProduct v
  let uuv := qvec.crossProduct uv
  (v.add (uv.scale (2 * q.w))).add (uuv.scale 2)

end Quaternion

/-- Rigid transform `btTransform`: an origin and a rotation. -/
structure Transform where
  origin : Vec3
  rotation : Quaternion
deriving DecidableEq

/-! ## Engine components -/

/-- Animation surface `dt::MeshComponent`, as far as the controller drives it: the selected
clip, the loop flag and whether the clip is enabled. -/
structure MeshComponent where
  clip : Option String
  loop : Bool
  playing : Bool
deriving DecidableEq

namespace MeshComponent

/-- Call `mesh->setAnimation(name)`. -/
def setAnimation (name : String) (m : MeshComponent) : MeshComponent :=
  { m with clip := some name }

/-- Call `mesh->setLoopAnimation(flag)`. -/
def setLoopAnimation (flag : Bool) (m : MeshComponent) : MeshComponent :=
  { m with loop := flag }

/-- Call `mesh->playAnimation()`. -/
def playAnimation (m : MeshComponent) : MeshComponent := { m with playing := true }

/-- Call `mesh->stopAnimation()`. -/
def stopAnimation (m : MeshComponent) : MeshComponent := { m with playing := false }

end MeshComponent

/-- Sound channel `dt::SoundComponent`: whether it is playing and whether it loops. -/
structure SoundComponent where
  playing : Bool
  loop : Bool
deriving DecidableEq

namespace SoundComponent

/-- Call `sound->playSound()`. -/
def playSound (s : SoundComponent) : SoundComponent := { s with playing := true }

/-- Call `sound->stopSound()`. -/
def stopSound (s : SoundComponent) : SoundComponent := { s with playing := false }

/-- Call `sound->getSound().setLoop(flag)`. -/
def setLoop (flag : Bool) (s : SoundComponent) : SoundComponent := { s with loop := flag }

end SoundComponent

/-- Result of a convex sweep as read off the callback: `callback.hasHit()` and whether
`callback.m_hitCollisionObject` casts to a `btRigidBody`. -/
structure SweepResult where
  hasHit : Bool
  hitIsRigidBody : Bool
deriving DecidableEq

/-- What the controller reads from the engine during one call. -/
structure World where
  /-- square root of the math library, used by the vector lengths -/
  sqrt : ℚ → ℚ
  /-- value of `physics_body->getRigidBody()->getGravity()` -/
  gravity : Vec3
  /-- value of `getRotation(dt::Node::SCENE)` -/
  rotation : Quaternion
  /-- value of `getPosition(dt::Node::SCENE)` -/
  position : Vec3
  /-- value of `physics_body->getRigidBody()->getWorldTransform()` -/
  bodyTransform : Transform
  /-- value of `isOnGround()`, the ground-contact query -/
  isOnGround : Bool
  /-- value of `mesh->isAnimationStopped()` -/
  isAnimationStopped : Bool
  /-- the physics world's sweep from a start transform to an end transform -/
  convexSweepTest : Transform → Transform → SweepResult

/-- The enumeration `Entity::MoveType`. The `default` label of the switch in `__onMove` is
not reached by any of these enumerators. -/
inductive MoveType where
  | FORWARD
  | BACKWARD
  | LEFTWARD
  | RIGHTWARD
  | STOP
deriving DecidableEq

/-- The constant `1e-5` of the cooldown comparisons. -/
def eps : ℚ := 1 / 100000

/-! ## Character state -/

/-- The members of `Character` (and of its base `Entity`) that the controller reads or
writes, the motion state's world transform, and the components it owns. -/
structure Character where
  moveVector : Vec3
  velocity : Vec3
  isJumping : Bool
  isMoving : Bool
  hasSpeededUp : Bool
  jumpSpeed : ℚ
  jumpingInterval : ℚ
  timeElapseAfterJumping : ℚ
  curSpeed : ℚ
  origSpeed : ℚ
  isUpdatingAfterChange : Bool
  worldTransform : Transform
  mesh : MeshComponent
  walkSound : SoundComponent
  jumpSound : SoundComponent
  runSound : SoundComponent
deriving DecidableEq

namespace Character

/-- Constructor `Character::Character`: the members the `Entity` constructor sets come with
`entity`; the constructor itself sets the velocity, the jump speed, the cooldown timer and
`mIsJumping`. -/
def construct (entity : Character) (jump_speed : ℚ) : Character :=
  { entity with
    velocity := ⟨0, 0, 0⟩
    jumpSpeed := jump_speed
    timeElapseAfterJumping := 1000000
    isJumping := false }

/-- Method `Character::onInitialize`: the two locomotion sounds loop, and the jump cooldown
is the jump speed over the length of gravity. -/
def onInitialize (w : World) (c : Character) : Character :=
  { c with
    walkSound := c.walkSound.setLoop true
    runSound := c.runSound.setLoop true
    jumpingInterval := c.jumpSpeed / w.gravity.length w.sqrt }

/-- Method `Character::setJumpSpeed`. -/
def setJumpSpeed (jump_speed : ℚ) (c : Character) : Character :=
  { c with jumpSpeed := jump_speed }

/-- Modelled from the spec: `Entity::setCurSpeed` is declared in `Entity.h`, which is not
among the sources; following "pressing sets `curSpeed = origSpeed * 1.5`; releasing restores
`curSpeed == origSpeed` exactly" it stores its argument unchanged. -/
def setCurSpeed (speed : ℚ) (c : Character) : Character :=
  { c with curSpeed := speed }

/-- Method `Character::__canJump`. -/
def __canJump (c : Character) : Bool :=
  decide (c.timeElapseAfterJumping + eps > c.jumpingInterval)

/-- Lines 324 to 327 of `__canMoveTo`: the sweep target, `position` raised by `0.01`. -/
def sweepTarget (position : Transform) : Transform :=
  { position with origin := { position.origin with y := position.origin.y + 1 / 100 } }

/-- Lines 329 to 332 of `__canMoveTo`: the callback after the sweep from the body's
transform to the raised target. -/
def sweep (w : World) (position : Transform) : SweepResult :=
  w.convexSweepTest w.bodyTransform (sweepTarget position)

/-- Method `Character::__canMoveTo`: answers false exactly on a hit whose object is a rigid
body. The second argument `closest_position` of the source is never read or written. -/
def __canMoveTo (w : World) (position : Transform) : Bool :=
  let callback := sweep w position
  if callback.hasHit && callback.hitIsRigidBody then false else true

/-- The test guarding the body of `Character::__onJump`. -/
def jumpAdmitted (w : World) (is_pressed : Bool) (c : Character) : Bool :=
  is_pressed && c.__canJump && w.isOnGround

/-- Method `Character::__onJump`. -/
def __onJump (w : World) (is_pressed : Bool) (c : Character) : Character :=
  if jumpAdmitted w is_pressed c then
    { c with
      velocity := { c.velocity with y := c.jumpSpeed }
      timeElapseAfterJumping := 0
      jumpSound := c.jumpSound.playSound
      mesh := (((c.mesh.stopAnimation).setAnimation "jump-begin").setLoopAnimation
        false).playAnimation
      isJumping := true }
  else c

/-- The switch of `Character::__onMove`: the new intent vector and the flag `is_stopped`. -/
def moveIntent (type : MoveType) (is_pressed : Bool) (v : Vec3) : Vec3 × Bool :=
  match type with
  | MoveType.FORWARD =>
    (if is_pressed && decide (v.z > -1) then { v with z := v.z - 1 }
     else if !is_pressed && decide (v.z < 1) then { v with z := v.z + 1 }
     else v, false)
  | MoveType.BACKWARD =>
    (if is_pressed && decide (v.z < 1) then { v with z := v.z + 1 }
     else if !is_pressed && decide (v.z > -1) then { v with z := v.z - 1 }
     else v, false)
  | MoveType.LEFTWARD =>
    (if is_pressed && decide (v.x > -1) then { v with x := v.x - 1 }
     else if !is_pressed && decide (v.x < 1) then { v with x := v.x + 1 }
     else v, false)
  | MoveType.RIGHTWARD =>
    (if is_pressed && decide (v.x < 1) then { v with x := v.x + 1 }
     else if !is_pressed && decide (v.x > -1) then { v with x := v.x - 1 }
     else v, false)
  | MoveType.STOP => ({ v with x := 0, z := 0 }, true)

/-- Method `Character::__onMove`. -/
def __onMove (type : MoveType) (is_pressed : Bool) (c : Character) : Character :=
  if !c.isJumping then
    let intent := moveIntent type is_pressed c.moveVector
    let is_stopped := intent.2
    let mesh := c.mesh.stopAnimation
    if is_stopped then
      { c with
        moveVector := intent.1
        mesh := mesh
        walkSound := c.walkSound.stopSound
        runSound := c.runSound.stopSound
        isMoving := !is_stopped }
    else if c.hasSpeededUp then
      { c with
        moveVector := intent.1
        mesh := ((mesh.setAnimation "run").setLoopAnimation true).playAnimation
        runSound := c.runSound.playSound
        isMoving := !is_stopped }
    else
      { c with
        moveVector := intent.1
        mesh := ((mesh.setAnimation "walk").setLoopAnimation true).playAnimation
        walkSound := c.walkSound.playSound
        isMoving := !is_stopped }
  else
    { c with isMoving := decide (type ≠ MoveType.STOP) }

/-- Method `Character::__onSpeedUp`, with `increasing_rate = 1.5`. -/
def __onSpeedUp (is_pressed : Bool) (c : Character) : Character :=
  let increasing_rate : ℚ := 3 / 2
  let c :=
    if is_pressed then
      let c := if c.curSpeed = c.origSpeed then c.setCurSpeed (c.origSpeed * increasing_rate)
        else c
      if !c.isJumping && c.isMoving then
        { c with
          walkSound := c.walkSound.stopSound
          runSound := c.runSound.playSound
          mesh := (((((c.mesh.setAnimation "walk").stopAnimation).setAnimation
            "run").setLoopAnimation true).playAnimation) }
      else c
    else
      let c := if c.curSpeed ≠ c.origSpeed then c.setCurSpeed c.origSpeed else c
      if !c.isJumping && c.isMoving then
        { c with
          runSound := c.runSound.stopSound
          walkSound := c.walkSound.playSound
          mesh := (((((c.mesh.setAnimation "run").stopAnimation).setAnimation
            "walk").setLoopAnimation true).playAnimation) }
      else c
  { c with hasSpeededUp := is_pressed }

/-! ### The tick `Character::onUpdate`, in the order of the source -/

/-- Lines 58 to 66: the flag `mIsUpdatingAfterChange`, then the cooldown timer, which grows
only while jumping and is clamped at `mJumpingInterval + 1e-5`. -/
def updateTimer (time_diff : ℚ) (c : Character) : Character :=
  let c := { c with isUpdatingAfterChange := decide (time_diff = 0) }
  if c.isJumping then
    let c := { c with timeElapseAfterJumping := c.timeElapseAfterJumping + time_diff }
    if c.timeElapseAfterJumping > c.jumpingInterval + eps then
      { c with timeElapseAfterJumping := c.jumpingInterval + eps }
    else c
  else c

/-- Lines 72 to 75: `new_velocity`, the rotated normalised intent times the current speed. -/
def newVelocity (w : World) (c : Character) : Vec3 :=
  let normalized_move_vector := c.moveVector.normalise w.sqrt
  (w.rotation.rotate normalized_move_vector).scale c.curSpeed

/-- Lines 84 to 87: off a jump the horizontal velocity is overwritten. -/
def applyIntent (w : World) (c : Character) : Character :=
  if !c.isJumping then
    { c with velocity := { c.velocity with x := (newVelocity w c).x, z := (newVelocity w c).z } }
  else c

/-- Lines 98 to 118: the landing, taken when jumping and the animation has stopped. -/
def land (w : World) (c : Character) : Character :=
  if c.isJumping && w.isAnimationStopped then
    let c := { c with isJumping := false, mesh := c.mesh.stopAnimation }
    let c := if !c.isMoving then { c with velocity := ⟨0, 0, 0⟩, moveVector := Vec3.zero }
      else c
    if !c.velocity.isZero then
      let mesh := if c.hasSpeededUp then c.mesh.setAnimation "run"
        else c.mesh.setAnimation "walk"
      { c with mesh := (mesh.setLoopAnimation true).playAnimation }
    else c
  else c

/-- Lines 89 to 122: on the ground with the cooldown over, a downward velocity is cleared
and the landing is tried; otherwise gravity is added to the velocity. -/
def groundOrFall (w : World) (time_diff : ℚ) (c : Character) : Character :=
  if c.__canJump && w.isOnGround then
    let c := if c.velocity.y < 0 then { c with velocity := { c.velocity with y := 0 } } else c
    land w c
  else
    { c with velocity := c.velocity.add (w.gravity.scale time_diff) }

/-- The state when line 124 is reached. -/
def integrate (w : World) (time_diff : ℚ) (c : Character) : Character :=
  groundOrFall w time_diff (applyIntent w (updateTimer time_diff c))

/-- Line 124: `target_position`, the motion state's transform with its origin advanced by
the velocity times the tick duration. -/
def candidate (w : World) (time_diff : ℚ) (c : Character) : Transform :=
  let target_position := c.worldTransform
  { target_position with
    origin := target_position.origin.add ((integrate w time_diff c).velocity.scale time_diff) }

/-- Lines 80 to 82: `possible_position`, handed to `__canMoveTo` as `closest_position`. -/
def possiblePosition (w : World) (c : Character) : Transform :=
  { origin := w.position, rotation := c.worldTransform.rotation }

/-- Lines 133 to 136, with the routine called at line 136 as a parameter: the vector from
the candidate origin to the scene position, to which `normalize` is applied unless the
vector is zero. -/
def correctionWith (normalize : Vec3 → Vec3) (w : World) (target_position : Transform) :
    Vec3 :=
  let vec := w.position.sub target_position.origin
  if !vec.isZero then normalize vec else vec

/-- Lines 133 to 136: the vector from the candidate origin to the scene position, normalised
by `btVector3::normalize` unless it is zero. -/
def correction (w : World) (target_position : Transform) : Vec3 :=
  correctionWith (Vec3.normalize w.sqrt) w target_position

/-- Lines 126 to 143, with the routine called at line 136 as a parameter: commit the
candidate, or redirect the velocity. -/
def placeWith (normalize : Vec3 → Vec3) (w : World) (target_position : Transform)
    (c : Character) : Character :=
  if __canMoveTo w target_position then
    { c with worldTransform := target_position }
  else
    let vec := correctionWith normalize w target_position
    let c := { c with velocity := { c.velocity with x := vec.x } }
    let c := if c.isJumping then { c with velocity := { c.velocity with y := vec.y } } else c
    { c with velocity := { c.velocity with z := vec.z } }

/-- Lines 126 to 143: commit the candidate, or redirect the velocity. -/
def place (w : World) (target_position : Transform) (c : Character) : Character :=
  placeWith (Vec3.normalize w.sqrt) w target_position c

/-- Method `Character::onUpdate`, with the routine called at line 136 as a parameter. -/
def onUpdateWith (normalize : Vec3 → Vec3) (w : World) (time_diff : ℚ) (c : Character) :
    Character :=
  placeWith normalize w (candidate w time_diff c) (integrate w time_diff c)

/-- Method `Character::onUpdate`. -/
def onUpdate (w : World) (time_diff : ℚ) (c : Character) : Character :=
  onUpdateWith (Vec3.normalize w.sqrt) w time_diff c

end Character

/-! ## Event sequences -/

/-- One call into the controller, together with what it reads from the engine. -/
inductive Event where
  | tick (w : World) (time_diff : ℚ)
  | move (type : MoveType) (is_pressed : Bool)
  | jump (w : World) (is_pressed : Bool)
  | speedUp (is_pressed : Bool)
  | setJumpSpeed (jump_speed : ℚ)

namespace Event

/-- The state after one call. -/
def step (c : Character) : Event → Character
  | tick w time_diff => c.onUpdate w time_diff
  | move type is_pressed => c.__onMove type is_pressed
  | jump w is_pressed => c.__onJump w is_pressed
  | speedUp is_pressed => c.__onSpeedUp is_pressed
  | setJumpSpeed jump_speed => c.setJumpSpeed jump_speed

/-- The state after a sequence of calls, first call first. -/
def run (c : Character) (es : List Event) : Character := es.foldl step c

/-- Duration of a call: the tick's `time_diff`, and zero for the input events. -/
def duration : Event → ℚ
  | tick _ time_diff => time_diff
  | _ => 0

/-- Total duration of the ticks of a sequence. -/
def elapsed (es : List Event) : ℚ := (es.map duration).sum

end Event

/-! ## Sample data -/

/-- A square root that is exact on the few squares the samples need. -/
def sampleSqrt (q : ℚ) : ℚ :=
  if q = 2401 / 25 then 49 / 5 else if q = 1 / 4 then 1 / 2 else if q = 1 then 1 else 0

/-- A world with gravity `(0, -9.8, 0)`, identity rotation, the node at the origin, the given
ground contact, the animation still running, and a sweep that answers `blocked` everywhere. -/
def sampleWorld (onGround blocked : Bool) : World :=
  { sqrt := sampleSqrt
    gravity := ⟨0, -49 / 5, 0⟩
    rotation := Quaternion.identity
    position := ⟨0, 0, 0⟩
    bodyTransform := ⟨⟨0, 0, 0⟩, Quaternion.identity⟩
    isOnGround := onGround
    isAnimationStopped := false
    convexSweepTest := fun _ _ => ⟨blocked, blocked⟩ }

/-- A character at rest at the origin: jump speed 10, speed 5, cooldown timer at its
constructed value, cooldown interval not yet initialised. -/
def restingCharacter : Character :=
  Character.construct
    { moveVector := ⟨0, 0, 0⟩
      velocity := ⟨0, 0, 0⟩
      isJumping := false
      isMoving := false
      hasSpeededUp := false
      jumpSpeed := 0
      jumpingInterval := 0
      timeElapseAfterJumping := 0
      curSpeed := 5
      origSpeed := 5
      isUpdatingAfterChange := false
      worldTransform := ⟨⟨0, 0, 0⟩, Quaternion.identity⟩
      mesh := ⟨none, false, false⟩
      walkSound := ⟨false, false⟩
      jumpSound := ⟨false, false⟩
      runSound := ⟨false, false⟩ } 10

/-- The resting character after `onInitialize` under the sample gravity. -/
def sampleCharacter : Character := restingCharacter.onInitialize (sampleWorld true false)


/-- No jump call of the sequence is admitted in the state it is delivered in. -/
def noJumpAdmitted : Character → List Event → Prop
  | _, [] => True
  | c, Event.jump w is_pressed :: es =>
    Character.jumpAdmitted w is_pressed c = false ∧ noJumpAdmitted c es
  | c, e :: es => noJumpAdmitted (Event.step c e) es

/-- Cooldown bookkeeping `t` time units after an admitted jump, for the interval `I`: the
timer is at most `t`; while the jump lasts it is `t` clamped at `I + 1e-5`; after the landing
the cooldown is over. -/
def CooldownInv (I t : ℚ) (c : Character) : Prop :=
  c.jumpingInterval = I ∧ c.timeElapseAfterJumping ≤ t ∧
  (c.isJumping = true → c.timeElapseAfterJumping = min t (I + eps)) ∧
  (c.isJumping = false → c.timeElapseAfterJumping + eps > I)

/-- The sample character after an admitted jump and one tick of two time units spent in
ground contact with the jump animation still running. -/
def airborneReady : Character :=
  Event.run sampleCharacter
    [Event.jump (sampleWorld true false) true, Event.tick (sampleWorld true false) 2]

/-- The sample character after a press of the forward key. -/
def walkingCharacter : Character := sampleCharacter.__onMove MoveType.FORWARD true

/-- The walking sample character after one free tick of a tenth of a time unit. -/
def stridingCharacter : Character :=
  walkingCharacter.onUpdate (sampleWorld true false) (1 / 10)

/-- The blocked sample world with the scene node at `(0, 0, -1/2)`. -/
def movedWorld : World := { sampleWorld true true with position := ⟨0, 0, -1 / 2⟩ }

/-- The intent vector has `x` and `z` among `-1`, `0`, `1` and `y` zero. -/
def IntentInRange (v : Vec3) : Prop :=
  (v.x = -1 ∨ v.x = 0 ∨ v.x = 1) ∧ v.y = 0 ∧ (v.z = -1 ∨ v.z = 0 ∨ v.z = 1)

/-- The two horizontal axes of the intent vector. -/
inductive Axis where
  | X
  | Z
deriving DecidableEq

namespace Axis

/-- The component of a vector on the axis. -/
def component : Axis → Vec3 → ℚ
  | X, v => v.x
  | Z, v => v.z

/-- The move type whose press decrements the component: `LEFTWARD` on `x`, `FORWARD` on `z`. -/
def negative : Axis → MoveType
  | X => MoveType.LEFTWARD
  | Z => MoveType.FORWARD

/-- The move type whose press increments the component: `RIGHTWARD` on `x`, `BACKWARD` on
`z`. -/
def positive : Axis → MoveType
  | X => MoveType.RIGHTWARD
  | Z => MoveType.BACKWARD

end Axis

/-- Which of the two keys of an axis are held down. -/
structure Held where
  negative : Bool
  positive : Bool
deriving DecidableEq

/-- Follows the keys of an axis through a sequence of calls. The answer is `none` when a key
of the axis is pressed while held or released while not held, or when a `STOP` move occurs;
moves on the other axis, jumps, sprint calls, jump-speed changes and ticks are passed over. -/
def heldAfter (a : Axis) : Held → List Event → Option Held
  | h, [] => some h
  | h, Event.move type is_pressed :: es =>
    if type = MoveType.STOP then none
    else if type = a.negative then
      if h.negative = !is_pressed then heldAfter a { h with negative := is_pressed } es
      else none
    else if type = a.positive then
      if h.positive = !is_pressed then heldAfter a { h with positive := is_pressed } es
      else none
    else heldAfter a h es
  | h, _ :: es => heldAfter a h es

/-- Every move event for one of the two directions of the axis is delivered in a state in
which `isJumping` is false. -/
def groundedMoves (a : Axis) : Character → List Event → Prop
  | _, [] => True
  | c, Event.move type is_pressed :: es =>
    ((type = a.negative ∨ type = a.positive) → c.isJumping = false) ∧
      groundedMoves a (Event.step c (Event.move type is_pressed)) es
  | c, e :: es => groundedMoves a (Event.step c e) es

/-- The component on the axis is what the held keys add up to, and a held key comes with
`isMoving`. -/
def HeldInv (a : Axis) (h : Held) (c : Character) : Prop :=
  a.component c.moveVector = (if h.positive then 1 else 0) - (if h.negative then 1 else 0) ∧
  ((h.negative = true ∨ h.positive = true) → c.isMoving = true)

/-- The free sample world in ground contact with the animation finished. -/
def landingWorld : World := { sampleWorld true false with isAnimationStopped := true }

/-- Forward press, admitted jump, forward release in the air. -/
def releaseInAir : List Event :=
  [Event.move MoveType.FORWARD true, Event.jump (sampleWorld true false) true,
    Event.move MoveType.FORWARD false]

/-- Forward press, admitted jump, a landing tick two time units later, forward release. -/
def releaseAfterLanding : List Event :=
  [Event.move MoveType.FORWARD true, Event.jump (sampleWorld true false) true,
    Event.tick landingWorld 2, Event.move MoveType.FORWARD false]

/-- The free sample world off the ground, with a gravity that also pulls along `x`. -/
def slantedWorld : World := { sampleWorld false false with gravity := ⟨1, -49 / 5, 0⟩ }

/-- The sample character right after its admitted jump. -/
def jumpedCharacter : Character := sampleCharacter.__onJump (sampleWorld true false) true

/-- The sample character after a standing jump, a forward press in the air, and a tick of
two time units off the ground: flagged as moving, falling straight down. -/
def pressedInAir : Character :=
  Event.run sampleCharacter
    [Event.jump (sampleWorld true false) true, Event.move MoveType.FORWARD true,
      Event.tick (sampleWorld false false) 2]

/-- The striding sample character after an admitted jump and a tick of two time units off
the ground: moving forward and falling, with the cooldown over. -/
def leapingCharacter : Character :=
  Event.run stridingCharacter
    [Event.jump (sampleWorld true false) true, Event.tick (sampleWorld false false) 2]

/-- Every sprint call of the sequence is delivered either in a state that is off a jump and
moving, where `__onSpeedUp` swaps the locomotion sounds, or in a state in which the sound it
turns away from is silent: the walk sound for a press, the run sound for a release. -/
def sprintGated : Character → List Event → Prop
  | _, [] => True
  | c, Event.speedUp is_pressed :: es =>
    ((c.isJumping = false ∧ c.isMoving = true) ∨
      ((is_pressed = true → c.walkSound.playing = false) ∧
        (is_pressed = false → c.runSound.playing = false))) ∧
      sprintGated (Event.step c (Event.speedUp is_pressed)) es
  | c, e :: es => sprintGated (Event.step c e) es

/-- A playing walk sound comes with `hasSpeededUp` false, a playing run sound with
`hasSpeededUp` true. -/
def SoundInv (c : Character) : Prop :=
  (c.walkSound.playing = true → c.hasSpeededUp = false) ∧
  (c.runSound.playing = true → c.hasSpeededUp = true)

/-- Forward press, admitted jump, sprint press in the air, landing tick, forward release. -/
def sprintInAir : List Event :=
  [Event.move MoveType.FORWARD true, Event.jump (sampleWorld true false) true,
    Event.speedUp true, Event.tick landingWorld 2, Event.move MoveType.FORWARD false]

/-- Sprint press at rest, forward press, sprint release on the ground, admitted jump, sprint
release in the air, landing tick, sprint press on the ground. -/
def sprintOnGround : List Event :=
  [Event.speedUp true, Event.move MoveType.FORWARD true, Event.speedUp false,
    Event.jump (sampleWorld true false) true, Event.speedUp false,
    Event.tick landingWorld 2, Event.speedUp true]

/-- Off a jump the cooldown is over. -/
def ReadyInv (c : Character) : Prop :=
  c.isJumping = false → c.jumpingInterval < c.timeElapseAfterJumping + 1 / 100000

/-- The jump speed after a sequence of calls: that of the last `setJumpSpeed` call, or the
given one when there is none. -/
def finalJumpSpeed (jump_speed : ℚ) : List Event → ℚ
  | [] => jump_speed
  | Event.setJumpSpeed v :: es => finalJumpSpeed v es
  | _ :: es => finalJumpSpeed jump_speed es

/-! ## Theorems -/

namespace Character

theorem onUpdate_eq (w : World) (dt : ℚ) (c : Character) :
    onUpdate w dt c = place w (candidate w dt c) (integrate w dt c) := rfl

/-! ### Frame lemmas for the cooldown members -/

theorem place_cooldown (w : World) (t : Transform) (c : Character) :
    (place w t c).timeElapseAfterJumping = c.timeElapseAfterJumping ∧
    (place w t c).jumpingInterval = c.jumpingInterval ∧
    (place w t c).isJumping = c.isJumping := by
  simp only [place, placeWith]
  split_ifs <;> simp

theorem land_cooldown (w : World) (c : Character) :
    (land w c).timeElapseAfterJumping = c.timeElapseAfterJumping ∧
    (land w c).jumpingInterval = c.jumpingInterval ∧
    (land w c).isJumping = (c.isJumping && !w.isAnimationStopped) := by
  simp only [land]
  split_ifs <;> simp_all

theorem groundOrFall_cooldown (w : World) (dt : ℚ) (c : Character) :
    (groundOrFall w dt c).timeElapseAfterJumping = c.timeElapseAfterJumping ∧
    (groundOrFall w dt c).jumpingInterval = c.jumpingInterval ∧
    (groundOrFall w dt c).isJumping =
      (c.isJumping && !(c.__canJump && w.isOnGround && w.isAnimationStopped)) := by
  by_cases h1 : (c.__canJump && w.isOnGround) = true
  · simp only [groundOrFall, h1, if_true]
    split_ifs <;> simp [land_cooldown]
  · simp only [groundOrFall, h1]
    simp at h1
    simp

theorem applyIntent_cooldown (w : World) (c : Character) :
    (applyIntent w c).timeElapseAfterJumping = c.timeElapseAfterJumping ∧
    (applyIntent w c).jumpingInterval = c.jumpingInterval ∧
    (applyIntent w c).isJumping = c.isJumping := by
  simp only [applyIntent]
  split_ifs <;> simp

theorem updateTimer_cooldown (dt : ℚ) (c : Character) :
    (updateTimer dt c).timeElapseAfterJumping =
      (if c.isJumping then min (c.timeElapseAfterJumping + dt) (c.jumpingInterval + eps)
        else c.timeElapseAfterJumping) ∧
    (updateTimer dt c).jumpingInterval = c.jumpingInterval ∧
    (updateTimer dt c).isJumping = c.isJumping := by
  simp only [updateTimer]
  by_cases hj : c.isJumping = true
  · by_cases hc : c.timeElapseAfterJumping + dt > c.jumpingInterval + eps
    · simp [hj, hc, min_eq_right (le_of_lt hc)]
    · simp [hj, hc, min_eq_left (not_lt.mp hc)]
  · simp [hj]

/-- What one tick does to the cooldown members. -/
theorem onUpdate_cooldown (w : World) (dt : ℚ) (c : Character) :
    (onUpdate w dt c).timeElapseAfterJumping =
      (if c.isJumping then min (c.timeElapseAfterJumping + dt) (c.jumpingInterval + eps)
        else c.timeElapseAfterJumping) ∧
    (onUpdate w dt c).jumpingInterval = c.jumpingInterval ∧
    (onUpdate w dt c).isJumping =
      (c.isJumping && !((updateTimer dt c).__canJump && w.isOnGround &&
        w.isAnimationStopped)) := by
  have hp := place_cooldown w (candidate w dt c) (integrate w dt c)
  have hg := groundOrFall_cooldown w dt (applyIntent w (updateTimer dt c))
  have ha := applyIntent_cooldown w (updateTimer dt c)
  have hu := updateTimer_cooldown dt c
  have hcj : (applyIntent w (updateTimer dt c)).__canJump = (updateTimer dt c).__canJump := by
    simp only [__canJump, ha.1, ha.2.1]
  simp only [onUpdate_eq]
  refine ⟨?_, ?_, ?_⟩
  · rw [hp.1, integrate, hg.1, ha.1, hu.1]
  · rw [hp.2.1, integrate, hg.2.1, ha.2.1, hu.2.1]
  · rw [hp.2.2, integrate, hg.2.2, ha.2.2, hu.2.2, hcj]


theorem move_cooldown (type : MoveType) (is_pressed : Bool) (c : Character) :
    (c.__onMove type is_pressed).timeElapseAfterJumping = c.timeElapseAfterJumping ∧
    (c.__onMove type is_pressed).jumpingInterval = c.jumpingInterval ∧
    (c.__onMove type is_pressed).isJumping = c.isJumping := by
  simp only [__onMove]
  split_ifs <;> simp

theorem speedUp_cooldown (is_pressed : Bool) (c : Character) :
    (c.__onSpeedUp is_pressed).timeElapseAfterJumping = c.timeElapseAfterJumping ∧
    (c.__onSpeedUp is_pressed).jumpingInterval = c.jumpingInterval ∧
    (c.__onSpeedUp is_pressed).isJumping = c.isJumping := by
  simp only [__onSpeedUp, setCurSpeed]
  split_ifs <;> simp

/-- A tick of non-negative duration keeps the cooldown bookkeeping. -/
theorem CooldownInv_tick (I t : ℚ) (w : World) (dt : ℚ) (c : Character) (hI : 0 ≤ dt)
    (h : CooldownInv I t c) : CooldownInv I (t + dt) (onUpdate w dt c) := by
  obtain ⟨h1, h2, h3, h4⟩ := h
  obtain ⟨u1, u2, u3⟩ := onUpdate_cooldown w dt c
  have v := updateTimer_cooldown dt c
  cases hj : c.isJumping
  · -- not jumping: timer and flag are as before
    simp only [hj, Bool.false_and, Bool.false_eq_true, if_false] at u1 u3
    refine ⟨by rw [u2, h1], by rw [u1]; linarith, ?_, ?_⟩
    · intro hc; rw [u3] at hc; exact absurd hc (by simp)
    · intro _; rw [u1]; exact h4 hj
  · simp only [hj, if_true, Bool.true_and] at u1 u3
    have ht : c.timeElapseAfterJumping = min t (I + eps) := h3 hj
    have hmin : min (c.timeElapseAfterJumping + dt) (c.jumpingInterval + eps) =
        min (t + dt) (I + eps) := by
      rw [ht, h1]
      rcases le_total t (I + eps) with hle | hle
      · rw [min_eq_left hle]
      · rw [min_eq_right hle, min_eq_right (by linarith), min_eq_right (by linarith)]
    refine ⟨by rw [u2, h1], ?_, ?_, ?_⟩
    · rw [u1, hmin]; exact min_le_left _ _
    · intro _; rw [u1, hmin]
    · intro hc
      rw [u3] at hc
      simp only [Bool.not_eq_false', Bool.and_eq_true, Bool.not_eq_eq_eq_not, Bool.not_true] at hc
      have hcan : (updateTimer dt c).__canJump = true := by
        simp at hc; exact hc.1.1
      simp only [__canJump, v.1, v.2.1, hj, if_true, decide_eq_true_eq] at hcan
      rw [u1, ← h1]; exact hcan

/-- Every call that is not an admitted jump keeps the cooldown bookkeeping, the elapsed time
growing by the duration of the call. -/
theorem CooldownInv_run (I : ℚ) (es : List Event) :
    ∀ (t : ℚ) (c : Character), CooldownInv I t c → (∀ e ∈ es, 0 ≤ Event.duration e) →
      noJumpAdmitted c es → CooldownInv I (t + Event.elapsed es) (Event.run c es) := by
  induction es with
  | nil => intro t c h _ _; simpa [Event.elapsed, Event.run] using h
  | cons e es ih =>
    intro t c h hd hn
    have hd' : ∀ e ∈ es, 0 ≤ Event.duration e := fun e he => hd e (List.mem_cons_of_mem _ he)
    have he : 0 ≤ Event.duration e := hd e (List.mem_cons_self _ _)
    have key : CooldownInv I (t + Event.duration e) (Event.step c e) ∧
        noJumpAdmitted (Event.step c e) es := by
      cases e with
      | tick w dt => exact ⟨CooldownInv_tick I t w dt c he h, hn⟩
      | move type p =>
        obtain ⟨m1, m2, m3⟩ := move_cooldown type p c
        refine ⟨?_, hn⟩
        simpa [CooldownInv, Event.step, Event.duration, m1, m2, m3] using h
      | jump w p =>
        have hs : c.__onJump w p = c := by simp [__onJump, hn.1]
        refine ⟨?_, ?_⟩
        · simpa [Event.step, Event.duration, hs] using h
        · simpa [Event.step, hs] using hn.2
      | speedUp p =>
        obtain ⟨m1, m2, m3⟩ := speedUp_cooldown p c
        refine ⟨?_, hn⟩
        simpa [CooldownInv, Event.step, Event.duration, m1, m2, m3] using h
      | setJumpSpeed v =>
        refine ⟨?_, hn⟩
        simpa [CooldownInv, Event.step, Event.duration, setJumpSpeed] using h
    have := ih (t + Event.duration e) (Event.step c e) key.1 hd' key.2
    have hel : t + Event.elapsed (e :: es) = t + Event.duration e + Event.elapsed es := by
      simp [Event.elapsed, add_assoc]
    rw [hel]
    simpa [Event.run] using this


/-! ### The sample states, evaluated -/

theorem sampleCharacter_eq : sampleCharacter =
    { moveVector := ⟨0, 0, 0⟩
      velocity := ⟨0, 0, 0⟩
      isJumping := false
      isMoving := false
      hasSpeededUp := false
      jumpSpeed := 10
      jumpingInterval := 50 / 49
      timeElapseAfterJumping := 1000000
      curSpeed := 5
      origSpeed := 5
      isUpdatingAfterChange := false
      worldTransform := ⟨⟨0, 0, 0⟩, Quaternion.identity⟩
      mesh := ⟨none, false, false⟩
      walkSound := ⟨false, true⟩
      jumpSound := ⟨false, false⟩
      runSound := ⟨false, true⟩ } := by
  norm_num [sampleCharacter, restingCharacter, construct, onInitialize, sampleWorld,
    Vec3.length, Vec3.length2, sampleSqrt, SoundComponent.setLoop]

theorem airborneReady_eq : airborneReady =
    { moveVector := ⟨0, 0, 0⟩
      velocity := ⟨0, 10, 0⟩
      isJumping := true
      isMoving := false
      hasSpeededUp := false
      jumpSpeed := 10
      jumpingInterval := 50 / 49
      timeElapseAfterJumping := 50 / 49 + 1 / 100000
      curSpeed := 5
      origSpeed := 5
      isUpdatingAfterChange := false
      worldTransform := ⟨⟨0, 20, 0⟩, Quaternion.identity⟩
      mesh := ⟨some "jump-begin", false, true⟩
      walkSound := ⟨false, true⟩
      jumpSound := ⟨true, false⟩
      runSound := ⟨false, true⟩ } := by
  simp [airborneReady, Event.run, Event.step, sampleCharacter_eq, __onJump, jumpAdmitted,
    __canJump, eps, sampleWorld, onUpdate, onUpdateWith, place, placeWith, candidate, integrate, groundOrFall, land,
    applyIntent, updateTimer, newVelocity, __canMoveTo, sweep, sweepTarget, correction, correctionWith, Vec3.normalise,
    Vec3.length, Vec3.length2, Vec3.scale, Vec3.add, Vec3.sub, Vec3.normalize, sampleSqrt,
    Quaternion.rotate, Quaternion.identity, Vec3.crossProduct, Vec3.isZero,
    MeshComponent.stopAnimation, MeshComponent.setAnimation, MeshComponent.setLoopAnimation,
    MeshComponent.playAnimation, SoundComponent.playSound]
  norm_num

/-! ### The jump guard -/

theorem canJump_iff (c : Character) :
    c.__canJump = true ↔ c.jumpingInterval < c.timeElapseAfterJumping + 1 / 100000 := by
  simp [__canJump, eps]

theorem jumpAdmitted_iff (w : World) (is_pressed : Bool) (c : Character) :
    jumpAdmitted w is_pressed c = true ↔
      (is_pressed = true ∧ c.jumpingInterval < c.timeElapseAfterJumping + 1 / 100000 ∧
        w.isOnGround = true) := by
  simp [jumpAdmitted, __canJump, eps, and_assoc]

theorem jumpAdmitted_eq_false_iff (w : World) (is_pressed : Bool) (c : Character) :
    jumpAdmitted w is_pressed c = false ↔
      (is_pressed = false ∨ c.timeElapseAfterJumping + 1 / 100000 ≤ c.jumpingInterval ∨
        w.isOnGround = false) := by
  rw [← Bool.not_eq_true, jumpAdmitted_iff]
  simp only [not_and_or, not_lt, Bool.not_eq_true]

theorem onJump_rejected (w : World) (is_pressed : Bool) (c : Character)
    (h : jumpAdmitted w is_pressed c = false) : c.__onJump w is_pressed = c := by
  simp [__onJump, h]

theorem onJump_admitted (w : World) (is_pressed : Bool) (c : Character)
    (h : jumpAdmitted w is_pressed c = true) :
    c.__onJump w is_pressed =
      { c with
        velocity := ⟨c.velocity.x, c.jumpSpeed, c.velocity.z⟩
        timeElapseAfterJumping := 0
        isJumping := true
        jumpSound := ⟨true, c.jumpSound.loop⟩
        mesh := ⟨some "jump-begin", false, true⟩ } := by
  simp [__onJump, h, MeshComponent.stopAnimation, MeshComponent.setAnimation,
    MeshComponent.setLoopAnimation, MeshComponent.playAnimation, SoundComponent.playSound]

/-! ### Jumping -/

/-- C1. Jump admission in `__onJump`: the guard holds exactly when the key is pressed, the
cooldown is over (`timeElapseAfterJumping + 1e-5 > jumpingInterval`) and the ground-contact
query answers true. When it holds the new state has `velocity.y = jumpSpeed`, a zero cooldown
timer, `isJumping`, the jump sound playing and the non-looping clip "jump-begin" playing, and
every other member (the horizontal velocity and the intent vector among them) as before.
When it fails the state is returned unchanged. -/
theorem onJump_admission (w : World) (is_pressed : Bool) (c : Character) :
    (jumpAdmitted w is_pressed c = true ↔
      (is_pressed = true ∧ c.timeElapseAfterJumping + 1 / 100000 > c.jumpingInterval ∧
        w.isOnGround = true)) ∧
    (jumpAdmitted w is_pressed c = true →
      c.__onJump w is_pressed =
        { c with
          velocity := ⟨c.velocity.x, c.jumpSpeed, c.velocity.z⟩
          timeElapseAfterJumping := 0
          isJumping := true
          jumpSound := ⟨true, c.jumpSound.loop⟩
          mesh := ⟨some "jump-begin", false, true⟩ }) ∧
    (jumpAdmitted w is_pressed c = false → c.__onJump w is_pressed = c) :=
  ⟨jumpAdmitted_iff w is_pressed c, onJump_admitted w is_pressed c,
    onJump_rejected w is_pressed c⟩

/-- C1, at the initialised sample character: in ground contact the press is admitted, and
without ground contact it changes nothing. -/
theorem onJump_admission_witness :
    jumpAdmitted (sampleWorld true false) true sampleCharacter = true ∧
    (sampleCharacter.__onJump (sampleWorld true false) true).velocity.y = 10 ∧
    (sampleCharacter.__onJump (sampleWorld true false) true).isJumping = true ∧
    jumpAdmitted (sampleWorld false false) true sampleCharacter = false ∧
    sampleCharacter.__onJump (sampleWorld false false) true = sampleCharacter := by
  have h := onJump_admission (sampleWorld true false) true sampleCharacter
  have h2 := onJump_admission (sampleWorld false false) true sampleCharacter
  have a1 : jumpAdmitted (sampleWorld true false) true sampleCharacter = true := by
    rw [jumpAdmitted_iff]
    norm_num [sampleCharacter_eq, sampleWorld]
  have a2 : jumpAdmitted (sampleWorld false false) true sampleCharacter = false := by
    simp [jumpAdmitted, sampleWorld]
  refine ⟨a1, ?_, ?_, a2, h2.2.2 a2⟩
  · rw [h.2.1 a1]
    simp [sampleCharacter_eq]
  · rw [h.2.1 a1]

/-- C2 as stated fails: the sample character, still flagged as jumping two time units after
its jump and back in ground contact, has its next press admitted, which resets the timer. -/
theorem double_jump_counterexample :
    airborneReady.isJumping = true ∧
    airborneReady.__onJump (sampleWorld true false) true ≠ airborneReady := by
  refine ⟨by simp [airborneReady_eq], fun h => ?_⟩
  have ha : jumpAdmitted (sampleWorld true false) true airborneReady = true := by
    rw [jumpAdmitted_iff]
    norm_num [airborneReady_eq, sampleWorld]
  have ht := congrArg Character.timeElapseAfterJumping h
  rw [onJump_admitted _ _ _ ha] at ht
  norm_num [airborneReady_eq] at ht

/-- C2, amended. While `isJumping` is true, a press `__onJump(true)` leaves the whole state
unchanged whenever the cooldown is not over (`timeElapseAfterJumping + 1e-5 <=
jumpingInterval`) or the ground-contact query answers false; with the cooldown over and
ground contact the press is admitted, `isJumping` notwithstanding. -/
theorem onJump_while_jumping (w : World) (c : Character) (_hj : c.isJumping = true) :
    ((c.timeElapseAfterJumping + 1 / 100000 ≤ c.jumpingInterval ∨ w.isOnGround = false) →
      jumpAdmitted w true c = false ∧ c.__onJump w true = c) ∧
    ((c.jumpingInterval < c.timeElapseAfterJumping + 1 / 100000 ∧ w.isOnGround = true) →
      jumpAdmitted w true c = true ∧
      (c.__onJump w true).timeElapseAfterJumping = 0 ∧
      (c.__onJump w true).velocity.y = c.jumpSpeed) := by
  constructor
  · intro h
    have ha : jumpAdmitted w true c = false :=
      (jumpAdmitted_eq_false_iff w true c).2 (Or.inr h)
    exact ⟨ha, onJump_rejected w true c ha⟩
  · rintro ⟨h1, h2⟩
    have ha : jumpAdmitted w true c = true := (jumpAdmitted_iff w true c).2 ⟨rfl, h1, h2⟩
    rw [onJump_admitted w true c ha]
    exact ⟨ha, rfl, rfl⟩

/-- C2, amended, at the sample character right after its jump: a second press in ground
contact is ignored, and the press two time units later is admitted. -/
theorem onJump_while_jumping_witness :
    (sampleCharacter.__onJump (sampleWorld true false) true).__onJump
        (sampleWorld true false) true =
      sampleCharacter.__onJump (sampleWorld true false) true ∧
    (airborneReady.__onJump (sampleWorld true false) true).timeElapseAfterJumping = 0 := by
  have a1 : jumpAdmitted (sampleWorld true false) true sampleCharacter = true := by
    rw [jumpAdmitted_iff]
    norm_num [sampleCharacter_eq, sampleWorld]
  constructor
  · refine ((onJump_while_jumping (sampleWorld true false)
      (sampleCharacter.__onJump (sampleWorld true false) true) ?_).1 ?_).2
    · rw [onJump_admitted _ _ _ a1]
    · left
      rw [onJump_admitted _ _ _ a1]
      norm_num [sampleCharacter_eq]
  · refine ((onJump_while_jumping (sampleWorld true false) airborneReady ?_).2 ?_).2.1
    · simp [airborneReady_eq]
    · norm_num [airborneReady_eq, sampleWorld]

/-- C3. Jump cooldown over ticks. Start right after an admitted jump, the cooldown interval
being non-negative, and let any calls follow (ticks of non-negative duration, move, sprint
and jump-speed calls, jump calls that are not admitted); let `t` be the total duration of
the ticks. Then a jump press is rejected, leaving the state unchanged, whenever
`t + 1e-5 <= jumpingInterval`, and it is admitted whenever `t >= jumpingInterval` and the
ground-contact query answers true. -/
theorem jump_cooldown_over_ticks (w0 : World) (p0 : Bool) (c0 : Character) (es : List Event)
    (w : World) (hI : 0 ≤ c0.jumpingInterval) (hadm : jumpAdmitted w0 p0 c0 = true)
    (hdur : ∀ e ∈ es, 0 ≤ Event.duration e)
    (hno : noJumpAdmitted (c0.__onJump w0 p0) es) :
    (Event.elapsed es + 1 / 100000 ≤ c0.jumpingInterval →
      jumpAdmitted w true (Event.run (c0.__onJump w0 p0) es) = false ∧
      (Event.run (c0.__onJump w0 p0) es).__onJump w true =
        Event.run (c0.__onJump w0 p0) es) ∧
    (c0.jumpingInterval ≤ Event.elapsed es → w.isOnGround = true →
      jumpAdmitted w true (Event.run (c0.__onJump w0 p0) es) = true ∧
      ((Event.run (c0.__onJump w0 p0) es).__onJump w true).isJumping = true ∧
      ((Event.run (c0.__onJump w0 p0) es).__onJump w true).timeElapseAfterJumping = 0 ∧
      ((Event.run (c0.__onJump w0 p0) es).__onJump w true).velocity.y =
        (Event.run (c0.__onJump w0 p0) es).jumpSpeed) := by
  have h0 : CooldownInv c0.jumpingInterval 0 (c0.__onJump w0 p0) := by
    have : (0 : ℚ) ≤ c0.jumpingInterval + eps := by unfold eps; linarith
    rw [onJump_admitted w0 p0 c0 hadm]
    simp [CooldownInv, this]
  have hinv := CooldownInv_run c0.jumpingInterval es 0 _ h0 hdur hno
  rw [zero_add] at hinv
  generalize Event.run (c0.__onJump w0 p0) es = c at hinv ⊢
  obtain ⟨i1, i2, i3, i4⟩ := hinv
  constructor
  · intro ht
    have ha : jumpAdmitted w true c = false :=
      (jumpAdmitted_eq_false_iff w true c).2 (Or.inr (Or.inl (by rw [i1]; linarith)))
    exact ⟨ha, onJump_rejected w true c ha⟩
  · intro ht hg
    have hcan : c.jumpingInterval < c.timeElapseAfterJumping + 1 / 100000 := by
      rw [i1]
      cases hj : c.isJumping
      · have := i4 hj
        unfold eps at this
        linarith
      · rw [i3 hj]
        have : c0.jumpingInterval ≤ min (Event.elapsed es) (c0.jumpingInterval + eps) :=
          le_min ht (by unfold eps; linarith)
        linarith
    have ha : jumpAdmitted w true c = true := (jumpAdmitted_iff w true c).2 ⟨rfl, hcan, hg⟩
    rw [onJump_admitted w true c ha]
    exact ⟨ha, rfl, rfl, rfl⟩

/-- C3, the scenario of the specification: jump speed 10 under gravity `(0, -9.8, 0)`, hence
a cooldown of `50/49`; after the jump and one tick of half a time unit, a second press in
ground contact is ignored. -/
theorem jump_cooldown_over_ticks_witness :
    sampleCharacter.jumpingInterval = 50 / 49 ∧
    (sampleCharacter.__onJump (sampleWorld true false) true).velocity.y = 10 ∧
    (Event.run (sampleCharacter.__onJump (sampleWorld true false) true)
        [Event.tick (sampleWorld false false) (1 / 2)]).__onJump (sampleWorld true false) true =
      Event.run (sampleCharacter.__onJump (sampleWorld true false) true)
        [Event.tick (sampleWorld false false) (1 / 2)] := by
  have a1 : jumpAdmitted (sampleWorld true false) true sampleCharacter = true := by
    rw [jumpAdmitted_iff]
    norm_num [sampleCharacter_eq, sampleWorld]
  refine ⟨by simp [sampleCharacter_eq], ?_, ?_⟩
  · rw [onJump_admitted _ _ _ a1]
    simp [sampleCharacter_eq]
  · refine ((jump_cooldown_over_ticks (sampleWorld true false) true sampleCharacter
      [Event.tick (sampleWorld false false) (1 / 2)] (sampleWorld true false) ?_ a1 ?_ ?_).1
      ?_).2
    · norm_num [sampleCharacter_eq]
    · simp [Event.duration]
    · simp [noJumpAdmitted]
    · norm_num [sampleCharacter_eq, Event.elapsed, Event.duration]

/-! ### Placement -/

theorem walkingCharacter_eq : walkingCharacter =
    { moveVector := ⟨0, 0, -1⟩
      velocity := ⟨0, 0, 0⟩
      isJumping := false
      isMoving := true
      hasSpeededUp := false
      jumpSpeed := 10
      jumpingInterval := 50 / 49
      timeElapseAfterJumping := 1000000
      curSpeed := 5
      origSpeed := 5
      isUpdatingAfterChange := false
      worldTransform := ⟨⟨0, 0, 0⟩, Quaternion.identity⟩
      mesh := ⟨some "walk", true, true⟩
      walkSound := ⟨true, true⟩
      jumpSound := ⟨false, false⟩
      runSound := ⟨false, true⟩ } := by
  simp [walkingCharacter, sampleCharacter_eq, __onMove, moveIntent,
    MeshComponent.stopAnimation, MeshComponent.setAnimation, MeshComponent.setLoopAnimation,
    MeshComponent.playAnimation, SoundComponent.playSound]

theorem canMoveTo_eq_false_iff (w : World) (position : Transform) :
    __canMoveTo w position = false ↔
      ((sweep w position).hasHit = true ∧ (sweep w position).hitIsRigidBody = true) := by
  simp only [__canMoveTo]
  split_ifs with h <;> simp_all

theorem canMoveTo_iff (w : World) (position : Transform) :
    __canMoveTo w position = true ↔
      ((sweep w position).hasHit = false ∨ (sweep w position).hitIsRigidBody = false) := by
  simp only [__canMoveTo]
  split_ifs with h
  · simp_all
  · simp only [Bool.and_eq_true, not_and_or, Bool.not_eq_true] at h
    simpa using h

theorem updateTimer_eq (dt : ℚ) (c : Character) :
    updateTimer dt c =
      { c with
        isUpdatingAfterChange := decide (dt = 0)
        timeElapseAfterJumping :=
          if c.isJumping then min (c.timeElapseAfterJumping + dt) (c.jumpingInterval + eps)
          else c.timeElapseAfterJumping } := by
  simp only [updateTimer]
  by_cases hj : c.isJumping = true
  · by_cases hc : c.timeElapseAfterJumping + dt > c.jumpingInterval + eps
    · simp [hj, hc, min_eq_right (le_of_lt hc)]
    · simp [hj, hc, min_eq_left (not_lt.mp hc)]
  · simp [hj]

theorem applyIntent_eq (w : World) (c : Character) :
    applyIntent w c =
      { c with
        velocity :=
          if c.isJumping then c.velocity
          else ⟨(newVelocity w c).x, c.velocity.y, (newVelocity w c).z⟩ } := by
  obtain ⟨_, _, j, _, _, _, _, _, _, _, _, _, _, _, _, _⟩ := c
  cases j <;> simp [applyIntent]

theorem land_frame (w : World) (c : Character) :
    (land w c).worldTransform = c.worldTransform ∧ (land w c).isMoving = c.isMoving ∧
    (land w c).hasSpeededUp = c.hasSpeededUp ∧ (land w c).curSpeed = c.curSpeed ∧
    (land w c).origSpeed = c.origSpeed ∧ (land w c).jumpSpeed = c.jumpSpeed := by
  simp only [land]
  split_ifs <;> simp_all

theorem groundOrFall_frame (w : World) (dt : ℚ) (c : Character) :
    (groundOrFall w dt c).worldTransform = c.worldTransform ∧
    (groundOrFall w dt c).isMoving = c.isMoving ∧
    (groundOrFall w dt c).hasSpeededUp = c.hasSpeededUp ∧
    (groundOrFall w dt c).curSpeed = c.curSpeed ∧
    (groundOrFall w dt c).origSpeed = c.origSpeed ∧
    (groundOrFall w dt c).jumpSpeed = c.jumpSpeed := by
  simp only [groundOrFall]
  split_ifs <;> simp [land_frame]

theorem place_of_canMove (w : World) (t : Transform) (c : Character)
    (h : __canMoveTo w t = true) : place w t c = { c with worldTransform := t } := by
  simp [place, placeWith, h]

theorem place_of_blocked (w : World) (t : Transform) (c : Character)
    (h : __canMoveTo w t = false) :
    place w t c =
      { c with
        velocity :=
          ⟨(correction w t).x, if c.isJumping then (correction w t).y else c.velocity.y,
            (correction w t).z⟩ } := by
  simp only [place, placeWith, correction, h]
  by_cases hj : c.isJumping = true <;> simp [hj]

theorem integrate_worldTransform (w : World) (dt : ℚ) (c : Character) :
    (integrate w dt c).worldTransform = c.worldTransform := by
  rw [integrate, (groundOrFall_frame w dt _).1, applyIntent_eq, updateTimer_eq]

/-- C4. Collision-gated placement in `onUpdate`. If the sweep reports no hit, or a hit whose
object is not a rigid body, the world transform after the tick is the candidate: its origin
is the origin before the tick plus the tick's updated velocity times the duration (the
`0.01` sweep offset is not part of it), its rotation is the rotation before, and the
updated velocity is the velocity after the tick. If the sweep reports a hit on a rigid body
the world transform is as before the tick. -/
theorem collision_gated_placement (w : World) (dt : ℚ) (c : Character) :
    (((sweep w (candidate w dt c)).hasHit = false ∨
        (sweep w (candidate w dt c)).hitIsRigidBody = false) →
      (onUpdate w dt c).worldTransform.origin =
        c.worldTransform.origin.add ((integrate w dt c).velocity.scale dt) ∧
      (onUpdate w dt c).worldTransform.rotation = c.worldTransform.rotation ∧
      (onUpdate w dt c).velocity = (integrate w dt c).velocity) ∧
    (((sweep w (candidate w dt c)).hasHit = true ∧
        (sweep w (candidate w dt c)).hitIsRigidBody = true) →
      (onUpdate w dt c).worldTransform = c.worldTransform) := by
  constructor
  · intro h
    have hc : __canMoveTo w (candidate w dt c) = true := (canMoveTo_iff _ _).2 h
    rw [onUpdate_eq, place_of_canMove _ _ _ hc]
    exact ⟨rfl, rfl, rfl⟩
  · intro h
    have hc : __canMoveTo w (candidate w dt c) = false := (canMoveTo_eq_false_iff _ _).2 h
    rw [onUpdate_eq, place_of_blocked _ _ _ hc]
    exact integrate_worldTransform w dt c

/-- C4, on the walking sample character and a tick of a tenth of a time unit: a free sweep
commits the origin `(0, 0, -1/2)`, a blocked sweep leaves the transform where it was. -/
theorem collision_gated_placement_witness :
    (onUpdate (sampleWorld true false) (1 / 10) walkingCharacter).worldTransform =
      ⟨⟨0, 0, -1 / 2⟩, Quaternion.identity⟩ ∧
    (onUpdate (sampleWorld true true) (1 / 10) walkingCharacter).worldTransform =
      walkingCharacter.worldTransform := by
  constructor
  · have h := (collision_gated_placement (sampleWorld true false) (1 / 10)
      walkingCharacter).1 (Or.inl (by simp [sweep, sampleWorld]))
    have hv : (integrate (sampleWorld true false) (1 / 10) walkingCharacter).velocity =
        ⟨0, 0, -5⟩ := by
      simp [walkingCharacter_eq, sampleWorld, onUpdate, onUpdateWith, place, placeWith, candidate, integrate, groundOrFall, land,
    applyIntent, updateTimer, newVelocity, __canMoveTo, sweep, sweepTarget, correction, correctionWith,
    possiblePosition, __canJump, eps, Vec3.normalise, Vec3.zero,
    Vec3.length, Vec3.length2, Vec3.scale, Vec3.add, Vec3.sub, Vec3.normalize, sampleSqrt,
    Quaternion.rotate, Quaternion.identity, Vec3.crossProduct, Vec3.isZero,
    MeshComponent.stopAnimation, MeshComponent.setAnimation, MeshComponent.setLoopAnimation,
    MeshComponent.playAnimation, SoundComponent.playSound, SoundComponent.stopSound]
      norm_num
    rw [hv] at h
    have e : ∀ t : Transform, t = ⟨t.origin, t.rotation⟩ := fun t => rfl
    rw [e (onUpdate _ _ _).worldTransform, h.1, h.2.1]
    norm_num [walkingCharacter_eq, Vec3.add, Vec3.scale]
  · exact (collision_gated_placement (sampleWorld true true) (1 / 10) walkingCharacter).2
      (by simp [sweep, sampleWorld])

theorem stridingCharacter_eq : stridingCharacter =
    { moveVector := ⟨0, 0, -1⟩
      velocity := ⟨0, 0, -5⟩
      isJumping := false
      isMoving := true
      hasSpeededUp := false
      jumpSpeed := 10
      jumpingInterval := 50 / 49
      timeElapseAfterJumping := 1000000
      curSpeed := 5
      origSpeed := 5
      isUpdatingAfterChange := false
      worldTransform := ⟨⟨0, 0, -1 / 2⟩, Quaternion.identity⟩
      mesh := ⟨some "walk", true, true⟩
      walkSound := ⟨true, true⟩
      jumpSound := ⟨false, false⟩
      runSound := ⟨false, true⟩ } := by
  norm_num [stridingCharacter, walkingCharacter_eq, sampleWorld, onUpdate, onUpdateWith, place, placeWith, candidate, integrate, groundOrFall, land,
    applyIntent, updateTimer, newVelocity, __canMoveTo, sweep, sweepTarget, correction, correctionWith,
    possiblePosition, __canJump, eps, Vec3.normalise, Vec3.zero,
    Vec3.length, Vec3.length2, Vec3.scale, Vec3.add, Vec3.sub, Vec3.normalize, sampleSqrt,
    Quaternion.rotate, Quaternion.identity, Vec3.crossProduct, Vec3.isZero,
    MeshComponent.stopAnimation, MeshComponent.setAnimation, MeshComponent.setLoopAnimation,
    MeshComponent.playAnimation, SoundComponent.playSound, SoundComponent.stopSound]

theorem length2_eq_zero_iff (v : Vec3) : v.length2 = 0 ↔ v.isZero = true := by
  obtain ⟨x, y, z⟩ := v
  simp only [Vec3.length2, Vec3.isZero, Bool.and_eq_true, decide_eq_true_eq]
  constructor
  · intro h
    have hx : x = 0 := by nlinarith [mul_self_nonneg x, mul_self_nonneg y, mul_self_nonneg z]
    have hy : y = 0 := by nlinarith [mul_self_nonneg x, mul_self_nonneg y, mul_self_nonneg z]
    have hz : z = 0 := by nlinarith [mul_self_nonneg x, mul_self_nonneg y, mul_self_nonneg z]
    exact ⟨⟨hx, hy⟩, hz⟩
  · rintro ⟨⟨rfl, rfl⟩, rfl⟩
    norm_num

/-- With a square root that is exact at the squared length of a non-zero vector, `normalize`
yields a vector of length one. -/
theorem normalize_length2 (sqrt : ℚ → ℚ) (v : Vec3) (hz : v.isZero = false)
    (hs : sqrt v.length2 * sqrt v.length2 = v.length2) : (v.normalize sqrt).length2 = 1 := by
  have hne : v.length2 ≠ 0 := by
    intro h
    rw [(length2_eq_zero_iff v).1 h] at hz
    exact Bool.noConfusion hz
  have hs0 : sqrt v.length2 ≠ 0 := by
    intro h
    rw [h] at hs
    exact hne (by rw [← hs]; ring)
  have e : (v.normalize sqrt).length2 =
      v.length2 / (sqrt v.length2 * sqrt v.length2) := by
    simp only [Vec3.normalize, Vec3.scale, Vec3.length, Vec3.length2]
    field_simp
  rw [e, hs, div_self hne]

/-- C5 as stated fails. The walking sample character is blocked on a tick of a tenth of a
time unit. The position handed to the sweep as `closest_position` is the current scene
position, so the vector from it to the current position is zero and normalises to zero; the
velocity after the tick is `(0, 0, 1)` all the same. -/
theorem blocked_redirect_counterexample :
    (sweep (sampleWorld true true)
      (candidate (sampleWorld true true) (1 / 10) walkingCharacter)).hasHit = true ∧
    (sweep (sampleWorld true true)
      (candidate (sampleWorld true true) (1 / 10) walkingCharacter)).hitIsRigidBody = true ∧
    (possiblePosition (sampleWorld true true) walkingCharacter).origin =
      (sampleWorld true true).position ∧
    (((sampleWorld true true).position.sub
      (possiblePosition (sampleWorld true true) walkingCharacter).origin).normalize
        (sampleWorld true true).sqrt).z = 0 ∧
    (onUpdate (sampleWorld true true) (1 / 10) walkingCharacter).velocity.z = 1 := by
  refine ⟨by simp [sweep, sampleWorld], by simp [sweep, sampleWorld], rfl, ?_, ?_⟩
  · simp [possiblePosition, sampleWorld, Vec3.sub, Vec3.normalize, Vec3.scale]
  · simp [walkingCharacter_eq, sampleWorld, onUpdate, onUpdateWith, place, placeWith, candidate, integrate, groundOrFall, land,
    applyIntent, updateTimer, newVelocity, __canMoveTo, sweep, sweepTarget, correction, correctionWith,
    possiblePosition, __canJump, eps, Vec3.normalise, Vec3.zero,
    Vec3.length, Vec3.length2, Vec3.scale, Vec3.add, Vec3.sub, Vec3.normalize, sampleSqrt,
    Quaternion.rotate, Quaternion.identity, Vec3.crossProduct, Vec3.isZero,
    MeshComponent.stopAnimation, MeshComponent.setAnimation, MeshComponent.setLoopAnimation,
    MeshComponent.playAnimation, SoundComponent.playSound, SoundComponent.stopSound]
    norm_num

/-- C5, amended. In a tick whose sweep reports a hit on a rigid body, let `vec` be the vector
from the candidate origin (the origin before the tick plus the updated velocity times the
duration) to the scene position of the entity. When `vec` is not zero, the velocity after
the tick has `x` and `z`, and `y` if `isJumping` holds, equal to the components of `vec`
normalised, which has length one where the square root is exact. When `isJumping` does not
hold, `y` is the updated velocity's `y`. -/
theorem blocked_move_redirect (w : World) (dt : ℚ) (c : Character)
    (hb : (sweep w (candidate w dt c)).hasHit = true ∧
      (sweep w (candidate w dt c)).hitIsRigidBody = true) :
    ((w.position.sub (candidate w dt c).origin).isZero = false →
      (onUpdate w dt c).velocity.x =
        ((w.position.sub (candidate w dt c).origin).normalize w.sqrt).x ∧
      (onUpdate w dt c).velocity.z =
        ((w.position.sub (candidate w dt c).origin).normalize w.sqrt).z ∧
      ((onUpdate w dt c).isJumping = true →
        (onUpdate w dt c).velocity.y =
          ((w.position.sub (candidate w dt c).origin).normalize w.sqrt).y) ∧
      (w.sqrt (w.position.sub (candidate w dt c).origin).length2 *
          w.sqrt (w.position.sub (candidate w dt c).origin).length2 =
        (w.position.sub (candidate w dt c).origin).length2 →
        ((w.position.sub (candidate w dt c).origin).normalize w.sqrt).length2 = 1)) ∧
    ((onUpdate w dt c).isJumping = false →
      (onUpdate w dt c).velocity.y = (integrate w dt c).velocity.y) := by
  have hc : __canMoveTo w (candidate w dt c) = false := (canMoveTo_eq_false_iff _ _).2 hb
  rw [onUpdate_eq, place_of_blocked _ _ _ hc]
  refine ⟨fun hz => ⟨?_, ?_, ?_, normalize_length2 _ _ hz⟩, ?_⟩
  · simp [correction, correctionWith, hz]
  · simp [correction, correctionWith, hz]
  · intro hj
    simp only at hj
    simp [correction, correctionWith, hz, hj]
  · intro hj
    simp only at hj
    simp [hj]

/-- C5, amended, on the blocked walking sample character: the candidate origin is
`(0, 0, -1/2)`, the entity is at the origin, and the velocity after the tick is the unit
vector `(0, 0, 1)`. -/
theorem blocked_move_redirect_witness :
    (onUpdate (sampleWorld true true) (1 / 10) walkingCharacter).velocity = ⟨0, 0, 1⟩ := by
  have h := blocked_move_redirect (sampleWorld true true) (1 / 10) walkingCharacter
    ⟨by simp [sweep, sampleWorld], by simp [sweep, sampleWorld]⟩
  have hcand : (candidate (sampleWorld true true) (1 / 10) walkingCharacter).origin =
      ⟨0, 0, -1 / 2⟩ := by
    simp [walkingCharacter_eq, sampleWorld, onUpdate, onUpdateWith, place, placeWith, candidate, integrate, groundOrFall, land,
    applyIntent, updateTimer, newVelocity, __canMoveTo, sweep, sweepTarget, correction, correctionWith,
    possiblePosition, __canJump, eps, Vec3.normalise, Vec3.zero,
    Vec3.length, Vec3.length2, Vec3.scale, Vec3.add, Vec3.sub, Vec3.normalize, sampleSqrt,
    Quaternion.rotate, Quaternion.identity, Vec3.crossProduct, Vec3.isZero,
    MeshComponent.stopAnimation, MeshComponent.setAnimation, MeshComponent.setLoopAnimation,
    MeshComponent.playAnimation, SoundComponent.playSound, SoundComponent.stopSound]
    norm_num
  have hy : (integrate (sampleWorld true true) (1 / 10) walkingCharacter).velocity.y = 0 := by
    norm_num [walkingCharacter_eq, sampleWorld, onUpdate, onUpdateWith, place, placeWith, candidate, integrate, groundOrFall, land,
    applyIntent, updateTimer, newVelocity, __canMoveTo, sweep, sweepTarget, correction, correctionWith,
    possiblePosition, __canJump, eps, Vec3.normalise, Vec3.zero,
    Vec3.length, Vec3.length2, Vec3.scale, Vec3.add, Vec3.sub, Vec3.normalize, sampleSqrt,
    Quaternion.rotate, Quaternion.identity, Vec3.crossProduct, Vec3.isZero,
    MeshComponent.stopAnimation, MeshComponent.setAnimation, MeshComponent.setLoopAnimation,
    MeshComponent.playAnimation, SoundComponent.playSound, SoundComponent.stopSound]
  have hj : (onUpdate (sampleWorld true true) (1 / 10) walkingCharacter).isJumping = false := by
    rw [(onUpdate_cooldown _ _ _).2.2]
    simp [walkingCharacter_eq]
  rw [hcand] at h
  have hz : ((sampleWorld true true).position.sub ⟨0, 0, -1 / 2⟩).isZero = false := by
    simp [sampleWorld, Vec3.sub, Vec3.isZero]
  obtain ⟨hx, hzz, -, -⟩ := h.1 hz
  have hyy := h.2 hj
  rw [hy] at hyy
  have e : ∀ v : Vec3, v = ⟨v.x, v.y, v.z⟩ := fun v => rfl
  rw [e (onUpdate _ _ _).velocity, hx, hzz, hyy]
  simp [sampleWorld, Vec3.sub, Vec3.normalize, Vec3.scale, Vec3.length, Vec3.length2,
    sampleSqrt]
  norm_num

/-- C6 as stated fails. The striding sample character moves at `(0, 0, -5)`; on a blocked
tick of zero duration with the scene node at the candidate origin the correction vector is
zero, the velocity before the collision step is still `(0, 0, -5)`, and the tick leaves the
velocity `(0, 0, 0)`. -/
theorem zero_correction_counterexample :
    (sweep movedWorld (candidate movedWorld 0 stridingCharacter)).hasHit = true ∧
    (sweep movedWorld (candidate movedWorld 0 stridingCharacter)).hitIsRigidBody = true ∧
    movedWorld.position.sub (candidate movedWorld 0 stridingCharacter).origin = ⟨0, 0, 0⟩ ∧
    stridingCharacter.velocity = ⟨0, 0, -5⟩ ∧
    (integrate movedWorld 0 stridingCharacter).velocity = ⟨0, 0, -5⟩ ∧
    (onUpdate movedWorld 0 stridingCharacter).velocity = ⟨0, 0, 0⟩ := by
  refine ⟨by simp [sweep, movedWorld, sampleWorld], by simp [sweep, movedWorld, sampleWorld],
    ?_, by simp [stridingCharacter_eq], ?_, ?_⟩
  · norm_num [stridingCharacter_eq, movedWorld, sampleWorld, onUpdate, onUpdateWith, place, placeWith, candidate, integrate, groundOrFall, land,
    applyIntent, updateTimer, newVelocity, __canMoveTo, sweep, sweepTarget, correction, correctionWith,
    possiblePosition, __canJump, eps, Vec3.normalise, Vec3.zero,
    Vec3.length, Vec3.length2, Vec3.scale, Vec3.add, Vec3.sub, Vec3.normalize, sampleSqrt,
    Quaternion.rotate, Quaternion.identity, Vec3.crossProduct, Vec3.isZero,
    MeshComponent.stopAnimation, MeshComponent.setAnimation, MeshComponent.setLoopAnimation,
    MeshComponent.playAnimation, SoundComponent.playSound, SoundComponent.stopSound]
  · norm_num [stridingCharacter_eq, movedWorld, sampleWorld, onUpdate, onUpdateWith, place, placeWith, candidate, integrate, groundOrFall, land,
    applyIntent, updateTimer, newVelocity, __canMoveTo, sweep, sweepTarget, correction, correctionWith,
    possiblePosition, __canJump, eps, Vec3.normalise, Vec3.zero,
    Vec3.length, Vec3.length2, Vec3.scale, Vec3.add, Vec3.sub, Vec3.normalize, sampleSqrt,
    Quaternion.rotate, Quaternion.identity, Vec3.crossProduct, Vec3.isZero,
    MeshComponent.stopAnimation, MeshComponent.setAnimation, MeshComponent.setLoopAnimation,
    MeshComponent.playAnimation, SoundComponent.playSound, SoundComponent.stopSound]
  · norm_num [stridingCharacter_eq, movedWorld, sampleWorld, onUpdate, onUpdateWith, place, placeWith, candidate, integrate, groundOrFall, land,
    applyIntent, updateTimer, newVelocity, __canMoveTo, sweep, sweepTarget, correction, correctionWith,
    possiblePosition, __canJump, eps, Vec3.normalise, Vec3.zero,
    Vec3.length, Vec3.length2, Vec3.scale, Vec3.add, Vec3.sub, Vec3.normalize, sampleSqrt,
    Quaternion.rotate, Quaternion.identity, Vec3.crossProduct, Vec3.isZero,
    MeshComponent.stopAnimation, MeshComponent.setAnimation, MeshComponent.setLoopAnimation,
    MeshComponent.playAnimation, SoundComponent.playSound, SoundComponent.stopSound]

theorem placeWith_of_blocked (normalize : Vec3 → Vec3) (w : World) (t : Transform)
    (c : Character) (h : __canMoveTo w t = false) :
    placeWith normalize w t c =
      { c with
        velocity :=
          ⟨(correctionWith normalize w t).x,
            if c.isJumping then (correctionWith normalize w t).y else c.velocity.y,
            (correctionWith normalize w t).z⟩ } := by
  simp only [placeWith, h]
  by_cases hj : c.isJumping = true <;> simp [hj]

/-- On a zero vector the routine of line 136 is not called: whatever it is, the correction
is the zero vector itself. -/
theorem correctionWith_zero (normalize : Vec3 → Vec3) (w : World) (t : Transform)
    (hz : w.position.sub t.origin = ⟨0, 0, 0⟩) : correctionWith normalize w t = ⟨0, 0, 0⟩ := by
  simp [correctionWith, hz, Vec3.isZero]

/-- C6, amended. In a tick whose sweep reports a hit on a rigid body and whose correction
vector (scene position minus candidate origin) is exactly zero, no normalisation is
performed: the state after the tick is the same whatever routine stands at line 136, and the
vector is used as it is. The velocity's `x` and `z` are overwritten with zero; `y` is
overwritten with zero if `isJumping` holds and is the updated velocity's `y` otherwise. -/
theorem zero_correction_vector (w : World) (dt : ℚ) (c : Character)
    (hb : (sweep w (candidate w dt c)).hasHit = true ∧
      (sweep w (candidate w dt c)).hitIsRigidBody = true)
    (hz : w.position.sub (candidate w dt c).origin = ⟨0, 0, 0⟩) :
    (∀ normalize : Vec3 → Vec3, onUpdateWith normalize w dt c = onUpdate w dt c) ∧
    correction w (candidate w dt c) = ⟨0, 0, 0⟩ ∧
    (onUpdate w dt c).velocity.x = 0 ∧ (onUpdate w dt c).velocity.z = 0 ∧
    ((onUpdate w dt c).isJumping = true → (onUpdate w dt c).velocity.y = 0) ∧
    ((onUpdate w dt c).isJumping = false →
      (onUpdate w dt c).velocity.y = (integrate w dt c).velocity.y) := by
  have hc : __canMoveTo w (candidate w dt c) = false := (canMoveTo_eq_false_iff _ _).2 hb
  have hcor : correction w (candidate w dt c) = ⟨0, 0, 0⟩ := correctionWith_zero _ w _ hz
  have hany : ∀ normalize : Vec3 → Vec3, onUpdateWith normalize w dt c = onUpdate w dt c := by
    intro normalize
    rw [onUpdate, onUpdateWith, onUpdateWith, placeWith_of_blocked _ _ _ _ hc,
      placeWith_of_blocked _ _ _ _ hc, correctionWith_zero normalize w _ hz,
      correctionWith_zero (Vec3.normalize w.sqrt) w _ hz]
  refine ⟨hany, ?_⟩
  rw [onUpdate_eq, place_of_blocked _ _ _ hc, hcor]
  refine ⟨rfl, rfl, rfl, ?_, ?_⟩
  · intro hj
    simp only at hj
    simp [hj]
  · intro hj
    simp only at hj
    simp [hj]

/-- C6, amended, on the striding sample character and the blocked tick of zero duration:
the velocity `(0, 0, -5)` becomes `(0, 0, 0)`, also with a routine at line 136 that would
send every vector to `(1, 1, 1)`. -/
theorem zero_correction_vector_witness :
    onUpdateWith (fun _ => ⟨1, 1, 1⟩) movedWorld 0 stridingCharacter =
      onUpdate movedWorld 0 stridingCharacter ∧
    correction movedWorld (candidate movedWorld 0 stridingCharacter) = ⟨0, 0, 0⟩ ∧
    (onUpdate movedWorld 0 stridingCharacter).velocity.x = 0 ∧
    (onUpdate movedWorld 0 stridingCharacter).velocity.z = 0 :=
  have h := zero_correction_vector movedWorld 0 stridingCharacter
    ⟨by simp [sweep, movedWorld, sampleWorld], by simp [sweep, movedWorld, sampleWorld]⟩
    (by norm_num [stridingCharacter_eq, movedWorld, sampleWorld, onUpdate, onUpdateWith, place, placeWith, candidate, integrate, groundOrFall, land,
    applyIntent, updateTimer, newVelocity, __canMoveTo, sweep, sweepTarget, correction, correctionWith,
    possiblePosition, __canJump, eps, Vec3.normalise, Vec3.zero,
    Vec3.length, Vec3.length2, Vec3.scale, Vec3.add, Vec3.sub, Vec3.normalize, sampleSqrt,
    Quaternion.rotate, Quaternion.identity, Vec3.crossProduct, Vec3.isZero,
    MeshComponent.stopAnimation, MeshComponent.setAnimation, MeshComponent.setLoopAnimation,
    MeshComponent.playAnimation, SoundComponent.playSound, SoundComponent.stopSound])
  ⟨h.1 _, h.2.1, h.2.2.1, h.2.2.2.1⟩

/-! ### The intent vector -/

theorem moveIntent_inRange (type : MoveType) (is_pressed : Bool) (v : Vec3)
    (h : IntentInRange v) : IntentInRange (moveIntent type is_pressed v).1 := by
  obtain ⟨x, y, z⟩ := v
  obtain ⟨hx, hy, hz⟩ := h
  simp only at hx hy hz
  subst hy
  cases type <;> cases is_pressed <;>
    rcases hx with rfl | rfl | rfl <;> rcases hz with rfl | rfl | rfl <;>
    norm_num [moveIntent, IntentInRange]

theorem onMove_moveVector (type : MoveType) (is_pressed : Bool) (c : Character) :
    (c.__onMove type is_pressed).moveVector =
      if c.isJumping then c.moveVector else (moveIntent type is_pressed c.moveVector).1 := by
  simp only [__onMove]
  split_ifs <;> simp_all

theorem onMove_isMoving (type : MoveType) (is_pressed : Bool) (c : Character) :
    (c.__onMove type is_pressed).isMoving = decide (type ≠ MoveType.STOP) := by
  simp only [__onMove]
  cases type <;> split_ifs <;> simp_all [moveIntent]

theorem onJump_moveVector (w : World) (is_pressed : Bool) (c : Character) :
    (c.__onJump w is_pressed).moveVector = c.moveVector ∧
    (c.__onJump w is_pressed).isMoving = c.isMoving := by
  simp only [__onJump]
  split_ifs <;> simp

theorem onSpeedUp_moveVector (is_pressed : Bool) (c : Character) :
    (c.__onSpeedUp is_pressed).moveVector = c.moveVector ∧
    (c.__onSpeedUp is_pressed).isMoving = c.isMoving ∧
    (c.__onSpeedUp is_pressed).isJumping = c.isJumping := by
  simp only [__onSpeedUp, setCurSpeed]
  split_ifs <;> simp

theorem land_moveVector (w : World) (c : Character) :
    (land w c).moveVector = c.moveVector ∨
      ((land w c).moveVector = Vec3.zero ∧ c.isMoving = false) := by
  simp only [land]
  split_ifs <;> simp_all

theorem groundOrFall_moveVector (w : World) (dt : ℚ) (c : Character) :
    (groundOrFall w dt c).moveVector = c.moveVector ∨
      ((groundOrFall w dt c).moveVector = Vec3.zero ∧ c.isMoving = false) := by
  simp only [groundOrFall]
  split_ifs
  · exact land_moveVector w _
  · exact land_moveVector w _
  · exact Or.inl rfl

theorem place_moveVector (w : World) (t : Transform) (c : Character) :
    (place w t c).moveVector = c.moveVector ∧ (place w t c).isMoving = c.isMoving := by
  simp only [place, placeWith]
  split_ifs <;> simp

/-- A tick leaves the intent vector alone, or zeroes it when the character is not moving;
the flag `isMoving` is as before. -/
theorem onUpdate_moveVector (w : World) (dt : ℚ) (c : Character) :
    ((onUpdate w dt c).moveVector = c.moveVector ∨
      ((onUpdate w dt c).moveVector = Vec3.zero ∧ c.isMoving = false)) ∧
    (onUpdate w dt c).isMoving = c.isMoving := by
  have hp := place_moveVector w (candidate w dt c) (integrate w dt c)
  have hg := groundOrFall_moveVector w dt (applyIntent w (updateTimer dt c))
  have hf := (groundOrFall_frame w dt (applyIntent w (updateTimer dt c))).2.1
  have e1 : (applyIntent w (updateTimer dt c)).moveVector = c.moveVector := by
    rw [applyIntent_eq, updateTimer_eq]
  have e2 : (applyIntent w (updateTimer dt c)).isMoving = c.isMoving := by
    rw [applyIntent_eq, updateTimer_eq]
  rw [e1, e2] at hg
  rw [e2] at hf
  rw [onUpdate_eq, hp.1, hp.2]
  exact ⟨hg, hf⟩

theorem step_inRange (c : Character) (e : Event) (h : IntentInRange c.moveVector) :
    IntentInRange (Event.step c e).moveVector := by
  cases e with
  | tick w dt =>
    rcases (onUpdate_moveVector w dt c).1 with h1 | h1
    · simpa [Event.step, h1] using h
    · simp [Event.step, h1.1, IntentInRange, Vec3.zero]
  | move type p =>
    simp only [Event.step, onMove_moveVector]
    split_ifs
    · exact h
    · exact moveIntent_inRange type p _ h
  | jump w p => simpa [Event.step, (onJump_moveVector w p c).1] using h
  | speedUp p => simpa [Event.step, (onSpeedUp_moveVector p c).1] using h
  | setJumpSpeed v => simpa [Event.step, setJumpSpeed] using h

theorem run_inRange (es : List Event) :
    ∀ c : Character, IntentInRange c.moveVector → IntentInRange (Event.run c es).moveVector := by
  induction es with
  | nil => intro c h; simpa [Event.run] using h
  | cons e es ih =>
    intro c h
    simpa [Event.run] using ih (Event.step c e) (step_inRange c e h)

/-- C7. Intent range invariant: from a character whose intent vector is `(0, 0, 0)`, after
any sequence of calls (move events of any type, pressed or released, matched or not, jump
and sprint events, jump-speed changes, ticks) the intent vector has `x` and `z` among `-1`,
`0`, `1`, hence within `[-1, 1]`, and `y` equal to zero. -/
theorem intent_range_invariant (c : Character) (es : List Event)
    (h0 : c.moveVector = ⟨0, 0, 0⟩) :
    IntentInRange (Event.run c es).moveVector ∧
    -1 ≤ (Event.run c es).moveVector.x ∧ (Event.run c es).moveVector.x ≤ 1 ∧
    (Event.run c es).moveVector.y = 0 ∧
    -1 ≤ (Event.run c es).moveVector.z ∧ (Event.run c es).moveVector.z ≤ 1 := by
  have h : IntentInRange (Event.run c es).moveVector :=
    run_inRange es c (by simp [h0, IntentInRange])
  obtain ⟨hx, hy, hz⟩ := h
  refine ⟨⟨hx, hy, hz⟩, ?_, ?_, hy, ?_, ?_⟩
  · rcases hx with h | h | h <;> rw [h] <;> norm_num
  · rcases hx with h | h | h <;> rw [h] <;> norm_num
  · rcases hz with h | h | h <;> rw [h] <;> norm_num
  · rcases hz with h | h | h <;> rw [h] <;> norm_num

/-- C7, on the sample character: two forward presses in a row and a release of the
rightward key that was never pressed leave the intent vector at `(-1, 0, -1)`. -/
theorem intent_range_invariant_witness :
    (Event.run sampleCharacter
      [Event.move MoveType.FORWARD true, Event.move MoveType.FORWARD true,
        Event.move MoveType.RIGHTWARD false]).moveVector = ⟨-1, 0, -1⟩ ∧
    IntentInRange (Event.run sampleCharacter
      [Event.move MoveType.FORWARD true, Event.move MoveType.FORWARD true,
        Event.move MoveType.RIGHTWARD false]).moveVector :=
  ⟨by norm_num [Event.run, Event.step, sampleCharacter_eq, __onMove, moveIntent],
    (intent_range_invariant sampleCharacter _ (by simp [sampleCharacter_eq])).1⟩

theorem HeldInv_run (a : Axis) (es : List Event) :
    ∀ (h h' : Held) (c : Character), HeldInv a h c → heldAfter a h es = some h' →
      groundedMoves a c es → HeldInv a h' (Event.run c es) := by
  induction es with
  | nil =>
    intro h h' c hi hh _
    simp only [heldAfter, Option.some.injEq] at hh
    subst hh
    simpa [Event.run] using hi
  | cons e es ih =>
    intro h h' c hi hh hg
    cases e with
    | tick w dt =>
      refine ih h h' _ ?_ (by simpa [heldAfter] using hh) hg
      obtain ⟨m1, m2⟩ := onUpdate_moveVector w dt c
      refine ⟨?_, fun hk => by simpa [Event.step, m2] using hi.2 hk⟩
      rcases m1 with m1 | ⟨m1, hm⟩
      · simpa [Event.step, m1] using hi.1
      · have hn : h.negative = false := by
          cases hv : h.negative
          · rfl
          · rw [hi.2 (Or.inl hv)] at hm; exact Bool.noConfusion hm
        have hp : h.positive = false := by
          cases hv : h.positive
          · rfl
          · rw [hi.2 (Or.inr hv)] at hm; exact Bool.noConfusion hm
        cases a <;> simp [Event.step, m1, hn, hp, Axis.component, Vec3.zero]
    | jump w p =>
      refine ih h h' _ ?_ (by simpa [heldAfter] using hh) hg
      obtain ⟨m1, m2⟩ := onJump_moveVector w p c
      exact ⟨by simpa [Event.step, m1] using hi.1,
        fun hk => by simpa [Event.step, m2] using hi.2 hk⟩
    | speedUp p =>
      refine ih h h' _ ?_ (by simpa [heldAfter] using hh) hg
      obtain ⟨m1, m2, _⟩ := onSpeedUp_moveVector p c
      exact ⟨by simpa [Event.step, m1] using hi.1,
        fun hk => by simpa [Event.step, m2] using hi.2 hk⟩
    | setJumpSpeed v =>
      refine ih h h' _ ?_ (by simpa [heldAfter] using hh) hg
      exact ⟨by simpa [Event.step, setJumpSpeed] using hi.1,
        fun hk => by simpa [Event.step, setJumpSpeed] using hi.2 hk⟩
    | move type p =>
      obtain ⟨hgj, hg'⟩ := hg
      simp only [heldAfter] at hh
      have hmov : (Event.step c (Event.move type p)).isMoving = decide (type ≠ MoveType.STOP) :=
        onMove_isMoving type p c
      have hvec : (Event.step c (Event.move type p)).moveVector =
          if c.isJumping then c.moveVector else (moveIntent type p c.moveVector).1 :=
        onMove_moveVector type p c
      by_cases hs : type = MoveType.STOP
      · simp [hs] at hh
      · rw [if_neg hs] at hh
        have hmov' : (Event.step c (Event.move type p)).isMoving = true := by
          rw [hmov]; simpa using hs
        by_cases hneg : type = a.negative
        · rw [if_pos hneg] at hh
          by_cases hal : h.negative = !p
          · rw [if_pos hal] at hh
            refine ih _ h' _ ⟨?_, fun _ => hmov'⟩ hh hg'
            rw [hvec, hgj (Or.inl hneg)]
            have h1 := hi.1
            cases a <;> cases p <;> cases hp : h.positive <;>
              simp_all [Axis.component, Axis.negative, moveIntent]
          · rw [if_neg hal] at hh
            exact Option.noConfusion hh
        · rw [if_neg hneg] at hh
          by_cases hpos : type = a.positive
          · rw [if_pos hpos] at hh
            by_cases hal : h.positive = !p
            · rw [if_pos hal] at hh
              refine ih _ h' _ ⟨?_, fun _ => hmov'⟩ hh hg'
              rw [hvec, hgj (Or.inr hpos)]
              have h1 := hi.1
              cases a <;> cases p <;> cases hp : h.negative <;>
                simp_all [Axis.component, Axis.positive, moveIntent]
            · rw [if_neg hal] at hh
              exact Option.noConfusion hh
          · rw [if_neg hpos] at hh
            refine ih h h' _ ⟨?_, fun _ => hmov'⟩ hh hg'
            rw [hvec, ← hi.1]
            split_ifs
            · rfl
            · cases a <;> cases type <;>
                simp_all [Axis.component, Axis.negative, Axis.positive, moveIntent] <;>
                split_ifs <;> rfl

/-- C8 as stated fails. On the sample character the forward key is pressed, a jump is
admitted, and the key is released in the air: every press is matched by its release, and the
`z` component of the intent vector is `-1`. -/
theorem intent_round_trip_counterexample :
    Axis.Z.component sampleCharacter.moveVector = 0 ∧
    heldAfter Axis.Z ⟨false, false⟩ releaseInAir = some ⟨false, false⟩ ∧
    Axis.Z.component (Event.run sampleCharacter releaseInAir).moveVector = -1 := by
  refine ⟨by simp [sampleCharacter_eq, Axis.component], by decide, ?_⟩
  norm_num [releaseInAir, Event.run, Event.step, sampleCharacter_eq, Axis.component,
    __onMove, moveIntent, __onJump, jumpAdmitted, __canJump, eps, sampleWorld]

/-- C8, amended. Take a character whose intent component on an axis (`x` for
`LEFTWARD`/`RIGHTWARD`, `z` for `FORWARD`/`BACKWARD`) is zero and a sequence of calls in
which the events of each direction of the axis alternate press, release, starting with a
press, interleaved with moves on the other axis, jumps, sprint calls and ticks but no
`STOP`. If every move event for the axis is delivered while `isJumping` is false, then once
every press has been matched by its release the component is zero again. -/
theorem intent_round_trip (a : Axis) (c : Character) (es : List Event)
    (h0 : a.component c.moveVector = 0)
    (hh : heldAfter a ⟨false, false⟩ es = some ⟨false, false⟩)
    (hg : groundedMoves a c es) :
    a.component (Event.run c es).moveVector = 0 := by
  have hi : HeldInv a ⟨false, false⟩ c := ⟨by simpa using h0, by simp⟩
  have := (HeldInv_run a es _ _ c hi hh hg).1
  simpa using this

/-- C8, amended, on the sample character: forward press, jump, landing tick, forward
release; the `z` component is `-1` while the key is held and zero at the end. -/
theorem intent_round_trip_witness :
    Axis.Z.component (Event.run sampleCharacter
      [Event.move MoveType.FORWARD true]).moveVector = -1 ∧
    Axis.Z.component (Event.run sampleCharacter releaseAfterLanding).moveVector = 0 := by
  refine ⟨?_, intent_round_trip Axis.Z sampleCharacter releaseAfterLanding ?_ (by decide) ?_⟩
  · norm_num [Event.run, Event.step, sampleCharacter_eq, Axis.component, __onMove,
      moveIntent]
  · simp [sampleCharacter_eq, Axis.component]
  · norm_num [releaseAfterLanding, groundedMoves, landingWorld, Event.step,
      sampleCharacter_eq, Axis.negative, Axis.positive, __onMove, moveIntent, __onJump,
      jumpAdmitted, sampleWorld, onUpdate, onUpdateWith, place, placeWith, candidate, integrate, groundOrFall, land,
    applyIntent, updateTimer, newVelocity, __canMoveTo, sweep, sweepTarget, correction, correctionWith,
    possiblePosition, __canJump, eps, Vec3.normalise, Vec3.zero,
    Vec3.length, Vec3.length2, Vec3.scale, Vec3.add, Vec3.sub, Vec3.normalize, sampleSqrt,
    Quaternion.rotate, Quaternion.identity, Vec3.crossProduct, Vec3.isZero,
    MeshComponent.stopAnimation, MeshComponent.setAnimation, MeshComponent.setLoopAnimation,
    MeshComponent.playAnimation, SoundComponent.playSound, SoundComponent.stopSound]

/-! ### Sprinting -/

theorem onSpeedUp_true_idem (c : Character) :
    (c.__onSpeedUp true).__onSpeedUp true = c.__onSpeedUp true := by
  obtain ⟨mv, v, j, m, hs, js, ji, t, cur, orig, u, wt, mesh, ws, jsnd, rs⟩ := c
  by_cases h : cur = orig
  · by_cases h2 : orig * (3 / 2) = orig <;> cases j <;> cases m <;>
      simp [__onSpeedUp, setCurSpeed, h, h2, MeshComponent.stopAnimation,
        MeshComponent.setAnimation, MeshComponent.setLoopAnimation,
        MeshComponent.playAnimation, SoundComponent.playSound, SoundComponent.stopSound]
  · cases j <;> cases m <;>
      simp [__onSpeedUp, setCurSpeed, h, MeshComponent.stopAnimation,
        MeshComponent.setAnimation, MeshComponent.setLoopAnimation,
        MeshComponent.playAnimation, SoundComponent.playSound, SoundComponent.stopSound]

theorem onSpeedUp_speeds (is_pressed : Bool) (c : Character) :
    (c.__onSpeedUp is_pressed).origSpeed = c.origSpeed ∧
    (c.__onSpeedUp is_pressed).hasSpeededUp = is_pressed ∧
    (c.__onSpeedUp is_pressed).curSpeed =
      (if is_pressed then (if c.curSpeed = c.origSpeed then c.origSpeed * (3 / 2) else c.curSpeed)
        else c.origSpeed) := by
  simp only [__onSpeedUp, setCurSpeed]
  split_ifs <;> simp_all

/-- C9. Sprint toggle. From a state with `curSpeed = origSpeed`, `__onSpeedUp(true)` yields
`curSpeed = origSpeed * 1.5`; from any state, pressing `n + 1` times in a row yields the
same state as pressing once; `__onSpeedUp(false)` from any state yields
`curSpeed = origSpeed`, the baseline being untouched; and `hasSpeededUp` is the last
`is_pressed`. -/
theorem sprint_toggle (c : Character) (is_pressed : Bool) (n : Nat) :
    (c.curSpeed = c.origSpeed → (c.__onSpeedUp true).curSpeed = c.origSpeed * (3 / 2)) ∧
    (__onSpeedUp true)^[n + 1] c = c.__onSpeedUp true ∧
    (c.__onSpeedUp false).curSpeed = c.origSpeed ∧
    (c.__onSpeedUp is_pressed).origSpeed = c.origSpeed ∧
    (c.__onSpeedUp is_pressed).hasSpeededUp = is_pressed := by
  refine ⟨fun h => ?_, ?_, ?_, (onSpeedUp_speeds is_pressed c).1,
    (onSpeedUp_speeds is_pressed c).2.1⟩
  · rw [(onSpeedUp_speeds true c).2.2]
    simp [h]
  · induction n with
    | zero => rfl
    | succ k ih =>
      rw [Function.iterate_succ_apply', ih, onSpeedUp_true_idem]
  · rw [(onSpeedUp_speeds false c).2.2]
    simp

/-- C9, on the walking sample character of speed 5: one press gives speed `15/2`, three
presses give the same state as one, and a release gives speed 5 again. -/
theorem sprint_toggle_witness :
    (walkingCharacter.__onSpeedUp true).curSpeed = 15 / 2 ∧
    (__onSpeedUp true)^[3] walkingCharacter = walkingCharacter.__onSpeedUp true ∧
    ((walkingCharacter.__onSpeedUp true).__onSpeedUp false).curSpeed = 5 := by
  have h := sprint_toggle walkingCharacter true 2
  have h2 := sprint_toggle (walkingCharacter.__onSpeedUp true) false 0
  refine ⟨?_, h.2.1, ?_⟩
  · rw [h.1 (by simp [walkingCharacter_eq])]
    norm_num [walkingCharacter_eq]
  · rw [h2.2.2.1, h.2.2.2.1]
    simp [walkingCharacter_eq]

/-! ### Velocity in the air -/

theorem land_of_isJumping (w : World) (c : Character) (h : (land w c).isJumping = true) :
    land w c = c := by
  simp only [land] at h ⊢
  split_ifs at h ⊢
  simp_all

theorem applyIntent_of_isJumping (w : World) (c : Character) (h : c.isJumping = true) :
    applyIntent w c = c := by
  simp [applyIntent, h]

/-- The horizontal velocity after a tick that starts and ends in a jump and is not blocked:
unchanged on the grounded branch, advanced by gravity otherwise. -/
theorem onUpdate_airborne_velocity (w : World) (dt : ℚ) (c : Character)
    (hj : c.isJumping = true) (hj' : (onUpdate w dt c).isJumping = true)
    (hc : __canMoveTo w (candidate w dt c) = true) :
    (((updateTimer dt c).__canJump && w.isOnGround) = true →
      (onUpdate w dt c).velocity.x = c.velocity.x ∧
      (onUpdate w dt c).velocity.z = c.velocity.z) ∧
    (((updateTimer dt c).__canJump && w.isOnGround) = false →
      (onUpdate w dt c).velocity = c.velocity.add (w.gravity.scale dt)) := by
  have hu : (updateTimer dt c).isJumping = true := by rw [(updateTimer_cooldown dt c).2.2, hj]
  have hv : (updateTimer dt c).velocity = c.velocity := by rw [updateTimer_eq]
  rw [onUpdate_eq, place_of_canMove _ _ _ hc] at hj' ⊢
  simp only at hj' ⊢
  rw [integrate, applyIntent_of_isJumping _ _ hu] at hj' ⊢
  constructor
  · intro hg
    simp only [groundOrFall, hg, if_true] at hj' ⊢
    rw [land_of_isJumping _ _ hj']
    split_ifs <;> simp [hv]
  · intro hg
    simp [groundOrFall, hg, hv]

theorem jumpedCharacter_eq : jumpedCharacter =
    { moveVector := ⟨0, 0, 0⟩
      velocity := ⟨0, 10, 0⟩
      isJumping := true
      isMoving := false
      hasSpeededUp := false
      jumpSpeed := 10
      jumpingInterval := 50 / 49
      timeElapseAfterJumping := 0
      curSpeed := 5
      origSpeed := 5
      isUpdatingAfterChange := false
      worldTransform := ⟨⟨0, 0, 0⟩, Quaternion.identity⟩
      mesh := ⟨some "jump-begin", false, true⟩
      walkSound := ⟨false, true⟩
      jumpSound := ⟨true, false⟩
      runSound := ⟨false, true⟩ } := by
  have a1 : jumpAdmitted (sampleWorld true false) true sampleCharacter = true := by
    rw [jumpAdmitted_iff]
    norm_num [sampleCharacter_eq, sampleWorld]
  rw [jumpedCharacter, onJump_admitted _ _ _ a1]
  simp [sampleCharacter_eq]

/-- C10 as stated fails. The sample character, just after its jump, spends one tick of one
time unit off the ground under the gravity `(1, -9.8, 0)`: it is jumping before and after,
the sweep reports no hit, and `velocity.x` goes from `0` to `1`. -/
theorem airborne_momentum_counterexample :
    jumpedCharacter.isJumping = true ∧
    (onUpdate slantedWorld 1 jumpedCharacter).isJumping = true ∧
    (sweep slantedWorld (candidate slantedWorld 1 jumpedCharacter)).hasHit = false ∧
    jumpedCharacter.velocity.x = 0 ∧
    (onUpdate slantedWorld 1 jumpedCharacter).velocity.x = 1 := by
  refine ⟨by simp [jumpedCharacter_eq], ?_, by simp [sweep, slantedWorld, sampleWorld],
    by simp [jumpedCharacter_eq], ?_⟩
  · rw [(onUpdate_cooldown _ _ _).2.2]
    simp [jumpedCharacter_eq, slantedWorld, sampleWorld]
  · norm_num [jumpedCharacter_eq, slantedWorld, sampleWorld, onUpdate, onUpdateWith, place, placeWith, candidate, integrate, groundOrFall, land,
    applyIntent, updateTimer, newVelocity, __canMoveTo, sweep, sweepTarget, correction, correctionWith,
    possiblePosition, __canJump, eps, Vec3.normalise, Vec3.zero,
    Vec3.length, Vec3.length2, Vec3.scale, Vec3.add, Vec3.sub, Vec3.normalize, sampleSqrt,
    Quaternion.rotate, Quaternion.identity, Vec3.crossProduct, Vec3.isZero,
    MeshComponent.stopAnimation, MeshComponent.setAnimation, MeshComponent.setLoopAnimation,
    MeshComponent.playAnimation, SoundComponent.playSound, SoundComponent.stopSound]

/-- C10, amended. In a tick that starts and ends with `isJumping` true and whose sweep
reports no hit on a rigid body, `velocity.x` and `velocity.z` after the tick equal their
values before the tick whenever gravity has zero `x` and `z`, for every intent vector and
duration. In general they equal the values before on the grounded branch (cooldown over and
ground contact) and the values before plus gravity's `x` and `z` times the duration
otherwise. -/
theorem airborne_horizontal_momentum (w : World) (dt : ℚ) (c : Character)
    (hj : c.isJumping = true) (hj' : (onUpdate w dt c).isJumping = true)
    (hfree : (sweep w (candidate w dt c)).hasHit = false ∨
      (sweep w (candidate w dt c)).hitIsRigidBody = false) :
    ((w.gravity.x = 0 ∧ w.gravity.z = 0) →
      (onUpdate w dt c).velocity.x = c.velocity.x ∧
      (onUpdate w dt c).velocity.z = c.velocity.z) ∧
    (((updateTimer dt c).__canJump && w.isOnGround) = true →
      (onUpdate w dt c).velocity.x = c.velocity.x ∧
      (onUpdate w dt c).velocity.z = c.velocity.z) ∧
    (((updateTimer dt c).__canJump && w.isOnGround) = false →
      (onUpdate w dt c).velocity.x = c.velocity.x + w.gravity.x * dt ∧
      (onUpdate w dt c).velocity.z = c.velocity.z + w.gravity.z * dt) := by
  have hc : __canMoveTo w (candidate w dt c) = true := (canMoveTo_iff _ _).2 hfree
  obtain ⟨h1, h2⟩ := onUpdate_airborne_velocity w dt c hj hj' hc
  have h3 : ((updateTimer dt c).__canJump && w.isOnGround) = false →
      (onUpdate w dt c).velocity.x = c.velocity.x + w.gravity.x * dt ∧
      (onUpdate w dt c).velocity.z = c.velocity.z + w.gravity.z * dt := by
    intro hg
    rw [h2 hg]
    exact ⟨rfl, rfl⟩
  refine ⟨?_, h1, h3⟩
  rintro ⟨gx, gz⟩
  cases hg : ((updateTimer dt c).__canJump && w.isOnGround)
  · have := h3 hg
    rw [gx, gz] at this
    simpa using this
  · exact h1 hg

/-- C10, amended, on the sample character just after its jump: a tick of one time unit off
the ground under the gravity `(0, -9.8, 0)` keeps `velocity.x` and `velocity.z` at zero. -/
theorem airborne_horizontal_momentum_witness :
    (onUpdate (sampleWorld false false) 1 jumpedCharacter).velocity.x = 0 ∧
    (onUpdate (sampleWorld false false) 1 jumpedCharacter).velocity.z = 0 := by
  have h := (airborne_horizontal_momentum (sampleWorld false false) 1 jumpedCharacter
    (by simp [jumpedCharacter_eq])
    (by rw [(onUpdate_cooldown _ _ _).2.2]; simp [jumpedCharacter_eq, sampleWorld])
    (Or.inl (by simp [sweep, sampleWorld]))).1 ⟨by simp [sampleWorld], by simp [sampleWorld]⟩
  simpa [jumpedCharacter_eq] using h

/-! ### Gravity -/

/-- The vertical velocity after a tick that starts and ends in a jump, is not blocked and
takes the grounded branch: a downward velocity is cleared, any other is kept. -/
theorem onUpdate_airborne_grounded_y (w : World) (dt : ℚ) (c : Character)
    (hj : c.isJumping = true) (hj' : (onUpdate w dt c).isJumping = true)
    (hc : __canMoveTo w (candidate w dt c) = true)
    (hg : ((updateTimer dt c).__canJump && w.isOnGround) = true) :
    (onUpdate w dt c).velocity.y = if c.velocity.y < 0 then 0 else c.velocity.y := by
  have hu : (updateTimer dt c).isJumping = true := by rw [(updateTimer_cooldown dt c).2.2, hj]
  have hv : (updateTimer dt c).velocity = c.velocity := by rw [updateTimer_eq]
  rw [onUpdate_eq, place_of_canMove _ _ _ hc] at hj' ⊢
  simp only at hj' ⊢
  rw [integrate, applyIntent_of_isJumping _ _ hu] at hj' ⊢
  simp only [groundOrFall, hg, if_true] at hj' ⊢
  rw [land_of_isJumping _ _ hj', hv]
  split_ifs <;> simp [hv]

/-- C11 as stated fails. The sample character, two time units after its jump, still flagged
as jumping and moving up at `10`, spends one tick of one time unit in ground contact with
the animation running: it is jumping before and after, the sweep reports no hit, and
`velocity.y` stays `10` instead of becoming `10 - 9.8`. -/
theorem gravity_integration_counterexample :
    airborneReady.isJumping = true ∧
    (onUpdate (sampleWorld true false) 1 airborneReady).isJumping = true ∧
    (sweep (sampleWorld true false)
      (candidate (sampleWorld true false) 1 airborneReady)).hasHit = false ∧
    airborneReady.velocity.y + (sampleWorld true false).gravity.y * 1 = 1 / 5 ∧
    (onUpdate (sampleWorld true false) 1 airborneReady).velocity.y = 10 := by
  refine ⟨by simp [airborneReady_eq], ?_, by simp [sweep, sampleWorld], ?_, ?_⟩
  · rw [(onUpdate_cooldown _ _ _).2.2]
    simp [airborneReady_eq, sampleWorld]
  · norm_num [airborneReady_eq, sampleWorld]
  · norm_num [airborneReady_eq, sampleWorld, onUpdate, onUpdateWith, place, placeWith, candidate, integrate, groundOrFall, land,
    applyIntent, updateTimer, newVelocity, __canMoveTo, sweep, sweepTarget, correction, correctionWith,
    possiblePosition, __canJump, eps, Vec3.normalise, Vec3.zero,
    Vec3.length, Vec3.length2, Vec3.scale, Vec3.add, Vec3.sub, Vec3.normalize, sampleSqrt,
    Quaternion.rotate, Quaternion.identity, Vec3.crossProduct, Vec3.isZero,
    MeshComponent.stopAnimation, MeshComponent.setAnimation, MeshComponent.setLoopAnimation,
    MeshComponent.playAnimation, SoundComponent.playSound, SoundComponent.stopSound]

/-- C11, amended. In a tick that starts and ends with `isJumping` true and whose sweep
reports no hit on a rigid body, `velocity.y` after the tick equals `velocity.y` before the
tick plus gravity's `y` times the duration whenever the tick integrates gravity, that is
when the cooldown, read after the tick's timer update, is not over or the ground-contact
query answers false. With the cooldown over and ground contact, `velocity.y` becomes zero if
it was negative and is kept otherwise. -/
theorem airborne_gravity_integration (w : World) (dt : ℚ) (c : Character)
    (hj : c.isJumping = true) (hj' : (onUpdate w dt c).isJumping = true)
    (hfree : (sweep w (candidate w dt c)).hasHit = false ∨
      (sweep w (candidate w dt c)).hitIsRigidBody = false) :
    (((updateTimer dt c).__canJump = false ∨ w.isOnGround = false) →
      (onUpdate w dt c).velocity.y = c.velocity.y + w.gravity.y * dt) ∧
    (((updateTimer dt c).__canJump = true ∧ w.isOnGround = true) →
      (onUpdate w dt c).velocity.y = if c.velocity.y < 0 then 0 else c.velocity.y) := by
  have hc : __canMoveTo w (candidate w dt c) = true := (canMoveTo_iff _ _).2 hfree
  constructor
  · intro h
    have hg : ((updateTimer dt c).__canJump && w.isOnGround) = false := by
      rcases h with h | h <;> simp [h]
    rw [(onUpdate_airborne_velocity w dt c hj hj' hc).2 hg]
    rfl
  · rintro ⟨h1, h2⟩
    exact onUpdate_airborne_grounded_y w dt c hj hj' hc (by simp [h1, h2])

/-- C11, amended, on the sample character just after its jump: one tick of half a time unit
off the ground takes `velocity.y` from `10` to `10 - 4.9`. -/
theorem airborne_gravity_integration_witness :
    (onUpdate (sampleWorld false false) (1 / 2) jumpedCharacter).velocity.y = 51 / 10 := by
  have h := (airborne_gravity_integration (sampleWorld false false) (1 / 2) jumpedCharacter
    (by simp [jumpedCharacter_eq])
    (by rw [(onUpdate_cooldown _ _ _).2.2]; simp [jumpedCharacter_eq, sampleWorld])
    (Or.inl (by simp [sweep, sampleWorld]))).1 (Or.inr (by simp [sampleWorld]))
  rw [h]
  norm_num [jumpedCharacter_eq, sampleWorld]

/-! ### On the ground -/

theorem land_of_not_isJumping (w : World) (c : Character) (h : c.isJumping = false) :
    land w c = c := by
  simp [land, h]

theorem newVelocity_updateTimer (w : World) (dt : ℚ) (c : Character) :
    newVelocity w (updateTimer dt c) = newVelocity w c := by
  rw [updateTimer_eq]
  rfl

/-- The velocity with which a tick that starts off a jump, with the cooldown over and in
ground contact, reaches the placement. -/
theorem integrate_grounded_velocity (w : World) (dt : ℚ) (c : Character)
    (hj : c.isJumping = false)
    (hcd : c.jumpingInterval < c.timeElapseAfterJumping + 1 / 100000)
    (hg : w.isOnGround = true) :
    (integrate w dt c).velocity =
      ⟨(newVelocity w c).x, if c.velocity.y < 0 then 0 else c.velocity.y,
        (newVelocity w c).z⟩ := by
  have hu := updateTimer_cooldown dt c
  have ha := applyIntent_cooldown w (updateTimer dt c)
  have hcan : (applyIntent w (updateTimer dt c)).__canJump = true := by
    rw [canJump_iff, ha.1, ha.2.1, hu.1, hu.2.1]
    simpa [hj] using hcd
  have hj2 : (applyIntent w (updateTimer dt c)).isJumping = false := by
    rw [ha.2.2, hu.2.2, hj]
  have hv : (applyIntent w (updateTimer dt c)).velocity =
      ⟨(newVelocity w c).x, c.velocity.y, (newVelocity w c).z⟩ := by
    rw [applyIntent_eq, newVelocity_updateTimer, hu.2.2, updateTimer_eq]
    simp [hj]
  simp only [integrate, groundOrFall, hcan, hg, Bool.and_self, if_true]
  rw [land_of_not_isJumping]
  · split_ifs with h1 h2 h2 <;> simp_all
  · split_ifs <;> simp [hj2]

/-- C12. Grounded horizontal response. In a tick that starts with `isJumping` false, the
cooldown over and ground contact, and whose sweep reports no hit on a rigid body,
`velocity.x` and `velocity.z` after the tick are the `x` and `z` of the current rotation
applied to the normalised intent vector, times the current speed; the previous velocity
does not enter. For a zero intent vector both are zero. -/
theorem grounded_horizontal_response (w : World) (dt : ℚ) (c : Character)
    (hj : c.isJumping = false)
    (hcd : c.jumpingInterval < c.timeElapseAfterJumping + 1 / 100000)
    (hg : w.isOnGround = true)
    (hfree : (sweep w (candidate w dt c)).hasHit = false ∨
      (sweep w (candidate w dt c)).hitIsRigidBody = false) :
    (onUpdate w dt c).velocity.x =
      ((w.rotation.rotate (c.moveVector.normalise w.sqrt)).scale c.curSpeed).x ∧
    (onUpdate w dt c).velocity.z =
      ((w.rotation.rotate (c.moveVector.normalise w.sqrt)).scale c.curSpeed).z ∧
    (c.moveVector = ⟨0, 0, 0⟩ →
      (onUpdate w dt c).velocity.x = 0 ∧ (onUpdate w dt c).velocity.z = 0) := by
  have hc : __canMoveTo w (candidate w dt c) = true := (canMoveTo_iff _ _).2 hfree
  have hv := integrate_grounded_velocity w dt c hj hcd hg
  have hx : (onUpdate w dt c).velocity.x = (newVelocity w c).x := by
    rw [onUpdate_eq, place_of_canMove _ _ _ hc]
    simp only [hv]
  have hz : (onUpdate w dt c).velocity.z = (newVelocity w c).z := by
    rw [onUpdate_eq, place_of_canMove _ _ _ hc]
    simp only [hv]
  refine ⟨hx, hz, fun h0 => ?_⟩
  rw [hx, hz]
  constructor <;>
    simp [newVelocity, h0, Vec3.normalise, Vec3.scale, Quaternion.rotate, Vec3.crossProduct,
      Vec3.add, apply_ite]

/-- C12, the scenario of the specification: intent `(0, 0, -1)`, speed 5, identity rotation
and a free tick of a tenth of a time unit give the horizontal velocity `(0, _, -5)` and the
committed origin `(0, 0, -1/2)`. -/
theorem grounded_horizontal_response_witness :
    walkingCharacter.moveVector = ⟨0, 0, -1⟩ ∧
    (onUpdate (sampleWorld true false) (1 / 10) walkingCharacter).velocity.x = 0 ∧
    (onUpdate (sampleWorld true false) (1 / 10) walkingCharacter).velocity.z = -5 ∧
    (onUpdate (sampleWorld true false) (1 / 10) walkingCharacter).worldTransform.origin =
      ⟨0, 0, -1 / 2⟩ := by
  have h := grounded_horizontal_response (sampleWorld true false) (1 / 10) walkingCharacter
    (by simp [walkingCharacter_eq]) (by norm_num [walkingCharacter_eq])
    (by simp [sampleWorld]) (Or.inl (by simp [sweep, sampleWorld]))
  refine ⟨by simp [walkingCharacter_eq], ?_, ?_, ?_⟩
  · rw [h.1]
    norm_num [walkingCharacter_eq, sampleWorld, onUpdate, onUpdateWith, place, placeWith, candidate, integrate, groundOrFall, land,
    applyIntent, updateTimer, newVelocity, __canMoveTo, sweep, sweepTarget, correction, correctionWith,
    possiblePosition, __canJump, eps, Vec3.normalise, Vec3.zero,
    Vec3.length, Vec3.length2, Vec3.scale, Vec3.add, Vec3.sub, Vec3.normalize, sampleSqrt,
    Quaternion.rotate, Quaternion.identity, Vec3.crossProduct, Vec3.isZero,
    MeshComponent.stopAnimation, MeshComponent.setAnimation, MeshComponent.setLoopAnimation,
    MeshComponent.playAnimation, SoundComponent.playSound, SoundComponent.stopSound]
  · rw [h.2.1]
    norm_num [walkingCharacter_eq, sampleWorld, onUpdate, onUpdateWith, place, placeWith, candidate, integrate, groundOrFall, land,
    applyIntent, updateTimer, newVelocity, __canMoveTo, sweep, sweepTarget, correction, correctionWith,
    possiblePosition, __canJump, eps, Vec3.normalise, Vec3.zero,
    Vec3.length, Vec3.length2, Vec3.scale, Vec3.add, Vec3.sub, Vec3.normalize, sampleSqrt,
    Quaternion.rotate, Quaternion.identity, Vec3.crossProduct, Vec3.isZero,
    MeshComponent.stopAnimation, MeshComponent.setAnimation, MeshComponent.setLoopAnimation,
    MeshComponent.playAnimation, SoundComponent.playSound, SoundComponent.stopSound]
  · have e := congrArg (fun s => s.worldTransform.origin) stridingCharacter_eq
    simpa [stridingCharacter] using e

/-! ### Landing -/

theorem pressedInAir_eq : pressedInAir =
    { moveVector := ⟨0, 0, 0⟩
      velocity := ⟨0, -48 / 5, 0⟩
      isJumping := true
      isMoving := true
      hasSpeededUp := false
      jumpSpeed := 10
      jumpingInterval := 50 / 49
      timeElapseAfterJumping := 50 / 49 + 1 / 100000
      curSpeed := 5
      origSpeed := 5
      isUpdatingAfterChange := false
      worldTransform := ⟨⟨0, -96 / 5, 0⟩, Quaternion.identity⟩
      mesh := ⟨some "jump-begin", false, true⟩
      walkSound := ⟨false, true⟩
      jumpSound := ⟨true, false⟩
      runSound := ⟨false, true⟩ } := by
  have hne : MoveType.FORWARD ≠ MoveType.STOP := by decide
  norm_num [pressedInAir, Event.run, Event.step, sampleCharacter_eq, __onJump, jumpAdmitted,
    __onMove, moveIntent, hne, sampleWorld, onUpdate, onUpdateWith, place, placeWith, candidate, integrate, groundOrFall, land,
    applyIntent, updateTimer, newVelocity, __canMoveTo, sweep, sweepTarget, correction, correctionWith,
    possiblePosition, __canJump, eps, Vec3.normalise, Vec3.zero,
    Vec3.length, Vec3.length2, Vec3.scale, Vec3.add, Vec3.sub, Vec3.normalize, sampleSqrt,
    Quaternion.rotate, Quaternion.identity, Vec3.crossProduct, Vec3.isZero,
    MeshComponent.stopAnimation, MeshComponent.setAnimation, MeshComponent.setLoopAnimation,
    MeshComponent.playAnimation, SoundComponent.playSound, SoundComponent.stopSound]

/-- With the cooldown over at the start of a tick of non-negative duration, it is over
after the timer update of that tick. -/
theorem canJump_updateTimer (dt : ℚ) (c : Character) (hdt : 0 ≤ dt)
    (hcd : c.jumpingInterval < c.timeElapseAfterJumping + 1 / 100000) :
    (updateTimer dt c).__canJump = true := by
  have hu := updateTimer_cooldown dt c
  rw [canJump_iff, hu.1, hu.2.1]
  split_ifs
  · have : c.jumpingInterval - 1 / 100000 <
        min (c.timeElapseAfterJumping + dt) (c.jumpingInterval + eps) :=
      lt_min (by linarith) (by unfold eps; linarith)
    linarith
  · exact hcd

/-- What the landing does to a jumping character whose animation has stopped. -/
theorem land_landing (w : World) (c : Character) (hj : c.isJumping = true)
    (ha : w.isAnimationStopped = true) :
    (land w c).isJumping = false ∧
    (c.isMoving = false →
      (land w c).velocity = ⟨0, 0, 0⟩ ∧ (land w c).moveVector = ⟨0, 0, 0⟩ ∧
      (land w c).mesh = ⟨c.mesh.clip, c.mesh.loop, false⟩) ∧
    (c.isMoving = true →
      (land w c).velocity = c.velocity ∧ (land w c).moveVector = c.moveVector ∧
      (c.velocity.isZero = false →
        (land w c).mesh = ⟨some (if c.hasSpeededUp then "run" else "walk"), true, true⟩) ∧
      (c.velocity.isZero = true → (land w c).mesh = ⟨c.mesh.clip, c.mesh.loop, false⟩)) := by
  obtain ⟨mv, v, j, m, hs, js, ji, t, cur, orig, u, wt, mesh, ws, jsnd, rs⟩ := c
  simp only at hj
  subst hj
  refine ⟨?_, ?_, ?_⟩
  · simp only [land, ha]
    split_ifs <;> simp_all
  · intro hm
    simp only at hm
    subst hm
    simp [land, ha, Vec3.isZero, Vec3.zero, MeshComponent.stopAnimation]
  · intro hm
    simp only at hm
    subst hm
    refine ⟨?_, ?_, ?_, ?_⟩
    · simp only [land, ha]
      split_ifs <;> simp_all
    · simp only [land, ha]
      split_ifs <;> simp_all
    · intro hz
      simp only at hz
      cases hs <;>
        simp [land, ha, hz, MeshComponent.stopAnimation, MeshComponent.setAnimation,
          MeshComponent.setLoopAnimation, MeshComponent.playAnimation]
    · intro hz
      simp only at hz
      simp [land, ha, hz, MeshComponent.stopAnimation]

theorem leapingCharacter_eq : leapingCharacter =
    { moveVector := ⟨0, 0, -1⟩
      velocity := ⟨0, -48 / 5, -5⟩
      isJumping := true
      isMoving := true
      hasSpeededUp := false
      jumpSpeed := 10
      jumpingInterval := 50 / 49
      timeElapseAfterJumping := 50 / 49 + 1 / 100000
      curSpeed := 5
      origSpeed := 5
      isUpdatingAfterChange := false
      worldTransform := ⟨⟨0, -96 / 5, -21 / 2⟩, Quaternion.identity⟩
      mesh := ⟨some "jump-begin", false, true⟩
      walkSound := ⟨true, true⟩
      jumpSound := ⟨true, false⟩
      runSound := ⟨false, true⟩ } := by
  norm_num [leapingCharacter, Event.run, Event.step, stridingCharacter_eq, __onJump,
    jumpAdmitted, sampleWorld, onUpdate, onUpdateWith, place, placeWith, candidate, integrate, groundOrFall, land,
    applyIntent, updateTimer, newVelocity, __canMoveTo, sweep, sweepTarget, correction, correctionWith,
    possiblePosition, __canJump, eps, Vec3.normalise, Vec3.zero,
    Vec3.length, Vec3.length2, Vec3.scale, Vec3.add, Vec3.sub, Vec3.normalize, sampleSqrt,
    Quaternion.rotate, Quaternion.identity, Vec3.crossProduct, Vec3.isZero,
    MeshComponent.stopAnimation, MeshComponent.setAnimation, MeshComponent.setLoopAnimation,
    MeshComponent.playAnimation, SoundComponent.playSound, SoundComponent.stopSound]

/-- The state with which a landing tick reaches the placement is the landing of a state
that agrees with the start of the tick except for the timer, the update flag and a cleared
downward velocity. -/
theorem integrate_landing (w : World) (dt : ℚ) (c : Character) (hj : c.isJumping = true)
    (hcd : c.jumpingInterval < c.timeElapseAfterJumping + 1 / 100000) (hdt : 0 ≤ dt)
    (hg : w.isOnGround = true) :
    ∃ c1 : Character, integrate w dt c = land w c1 ∧ c1.isJumping = true ∧
      c1.isMoving = c.isMoving ∧ c1.hasSpeededUp = c.hasSpeededUp ∧ c1.mesh = c.mesh ∧
      c1.moveVector = c.moveVector ∧
      c1.velocity = ⟨c.velocity.x, if c.velocity.y < 0 then 0 else c.velocity.y,
        c.velocity.z⟩ := by
  have hu : (updateTimer dt c).isJumping = true := by rw [(updateTimer_cooldown dt c).2.2, hj]
  have hcan := canJump_updateTimer dt c hdt hcd
  have he := updateTimer_eq dt c
  by_cases hy : c.velocity.y < 0
  · refine ⟨{ updateTimer dt c with velocity := { (updateTimer dt c).velocity with y := 0 } },
      ?_, hu, ?_, ?_, ?_, ?_, ?_⟩
    · have hy' : (updateTimer dt c).velocity.y < 0 := by rw [he]; exact hy
      rw [integrate, applyIntent_of_isJumping _ _ hu]
      simp [groundOrFall, hcan, hg, hy']
    all_goals rw [he]
    all_goals simp [hy]
  · refine ⟨updateTimer dt c, ?_, hu, ?_, ?_, ?_, ?_, ?_⟩
    · have hy' : ¬ (updateTimer dt c).velocity.y < 0 := by rw [he]; exact hy
      rw [integrate, applyIntent_of_isJumping _ _ hu]
      simp [groundOrFall, hcan, hg, hy']
    all_goals rw [he]
    all_goals simp [hy]

/-- C13 as stated fails. The sample character jumped from rest, had the forward key pressed
in the air, and is falling straight down with the cooldown over. Its landing tick (ground
contact, animation finished, free sweep) starts with `isMoving` true and `hasSpeededUp`
false, yet after it the clip is still "jump-begin", not looping and not playing. -/
theorem landing_counterexample :
    pressedInAir.isJumping = true ∧
    pressedInAir.jumpingInterval < pressedInAir.timeElapseAfterJumping + 1 / 100000 ∧
    landingWorld.isOnGround = true ∧ landingWorld.isAnimationStopped = true ∧
    (sweep landingWorld (candidate landingWorld (1 / 10) pressedInAir)).hasHit = false ∧
    pressedInAir.isMoving = true ∧ pressedInAir.hasSpeededUp = false ∧
    (onUpdate landingWorld (1 / 10) pressedInAir).isJumping = false ∧
    (onUpdate landingWorld (1 / 10) pressedInAir).mesh = ⟨some "jump-begin", false, false⟩ := by
  refine ⟨by simp [pressedInAir_eq], by norm_num [pressedInAir_eq],
    by simp [landingWorld, sampleWorld], by simp [landingWorld],
    by simp [sweep, landingWorld, sampleWorld], by simp [pressedInAir_eq],
    by simp [pressedInAir_eq], ?_, ?_⟩
  · norm_num [pressedInAir_eq, landingWorld, sampleWorld, onUpdate, onUpdateWith, place, placeWith, candidate, integrate, groundOrFall, land,
    applyIntent, updateTimer, newVelocity, __canMoveTo, sweep, sweepTarget, correction, correctionWith,
    possiblePosition, __canJump, eps, Vec3.normalise, Vec3.zero,
    Vec3.length, Vec3.length2, Vec3.scale, Vec3.add, Vec3.sub, Vec3.normalize, sampleSqrt,
    Quaternion.rotate, Quaternion.identity, Vec3.crossProduct, Vec3.isZero,
    MeshComponent.stopAnimation, MeshComponent.setAnimation, MeshComponent.setLoopAnimation,
    MeshComponent.playAnimation, SoundComponent.playSound, SoundComponent.stopSound]
  · norm_num [pressedInAir_eq, landingWorld, sampleWorld, onUpdate, onUpdateWith, place, placeWith, candidate, integrate, groundOrFall, land,
    applyIntent, updateTimer, newVelocity, __canMoveTo, sweep, sweepTarget, correction, correctionWith,
    possiblePosition, __canJump, eps, Vec3.normalise, Vec3.zero,
    Vec3.length, Vec3.length2, Vec3.scale, Vec3.add, Vec3.sub, Vec3.normalize, sampleSqrt,
    Quaternion.rotate, Quaternion.identity, Vec3.crossProduct, Vec3.isZero,
    MeshComponent.stopAnimation, MeshComponent.setAnimation, MeshComponent.setLoopAnimation,
    MeshComponent.playAnimation, SoundComponent.playSound, SoundComponent.stopSound]

/-- C13, amended. Take a tick of non-negative duration that starts with `isJumping` true,
the cooldown over, ground contact and the animation finished, and whose sweep reports no
hit on a rigid body. After it `isJumping` is false. If `isMoving` is false, the velocity and
the intent vector are `(0, 0, 0)`. If `isMoving` is true and the velocity at the landing
(the velocity before the tick with a negative `y` cleared) is not zero, the clip is "run"
when `hasSpeededUp` is true and "walk" otherwise, looping and playing; if that velocity is
zero the clip selected before is left stopped. -/
theorem landing (w : World) (dt : ℚ) (c : Character) (hj : c.isJumping = true)
    (hcd : c.jumpingInterval < c.timeElapseAfterJumping + 1 / 100000) (hdt : 0 ≤ dt)
    (hg : w.isOnGround = true) (ha : w.isAnimationStopped = true)
    (hfree : (sweep w (candidate w dt c)).hasHit = false ∨
      (sweep w (candidate w dt c)).hitIsRigidBody = false) :
    (onUpdate w dt c).isJumping = false ∧
    (c.isMoving = false →
      (onUpdate w dt c).velocity = ⟨0, 0, 0⟩ ∧ (onUpdate w dt c).moveVector = ⟨0, 0, 0⟩) ∧
    (c.isMoving = true →
      (⟨c.velocity.x, if c.velocity.y < 0 then 0 else c.velocity.y, c.velocity.z⟩ :
        Vec3).isZero = false →
      (onUpdate w dt c).mesh =
        ⟨some (if c.hasSpeededUp then "run" else "walk"), true, true⟩) ∧
    (c.isMoving = true →
      (⟨c.velocity.x, if c.velocity.y < 0 then 0 else c.velocity.y, c.velocity.z⟩ :
        Vec3).isZero = true →
      (onUpdate w dt c).mesh = ⟨c.mesh.clip, c.mesh.loop, false⟩) := by
  have hc : __canMoveTo w (candidate w dt c) = true := (canMoveTo_iff _ _).2 hfree
  obtain ⟨c1, h1, j1, m1, s1, me1, mv1, v1⟩ := integrate_landing w dt c hj hcd hdt hg
  obtain ⟨l1, l2, l3⟩ := land_landing w c1 j1 ha
  rw [onUpdate_eq, place_of_canMove _ _ _ hc, h1]
  refine ⟨l1, fun hm => ?_, fun hm hz => ?_, fun hm hz => ?_⟩
  · exact ⟨(l2 (by rw [m1, hm])).1, (l2 (by rw [m1, hm])).2.1⟩
  · have := (l3 (by rw [m1, hm])).2.2.1 (by rw [v1]; exact hz)
    rw [s1] at this
    exact this
  · have := (l3 (by rw [m1, hm])).2.2.2 (by rw [v1]; exact hz)
    rw [me1] at this
    exact this

/-- C13, amended, on the sample character that jumped while striding and is coming down: the
landing tick clears `isJumping` and resumes the looping "walk" clip. -/
theorem landing_witness :
    (onUpdate landingWorld (1 / 10) leapingCharacter).isJumping = false ∧
    (onUpdate landingWorld (1 / 10) leapingCharacter).mesh = ⟨some "walk", true, true⟩ := by
  have h := landing landingWorld (1 / 10) leapingCharacter (by simp [leapingCharacter_eq])
    (by norm_num [leapingCharacter_eq]) (by norm_num) (by simp [landingWorld, sampleWorld])
    (by simp [landingWorld]) (Or.inl (by simp [sweep, landingWorld, sampleWorld]))
  refine ⟨h.1, ?_⟩
  have := h.2.2.1 (by simp [leapingCharacter_eq])
    (by norm_num [leapingCharacter_eq, Vec3.isZero])
  simpa [leapingCharacter_eq] using this

/-! ### The cooldown interval -/

theorem onJump_cooldown (w : World) (is_pressed : Bool) (c : Character) :
    (c.__onJump w is_pressed).jumpingInterval = c.jumpingInterval ∧
    (c.__onJump w is_pressed).jumpSpeed = c.jumpSpeed := by
  simp only [__onJump]
  split_ifs <;> simp

theorem step_jumpingInterval (c : Character) (e : Event) :
    (Event.step c e).jumpingInterval = c.jumpingInterval := by
  cases e with
  | tick w dt => exact (onUpdate_cooldown w dt c).2.1
  | move type p => exact (move_cooldown type p c).2.1
  | jump w p => exact (onJump_cooldown w p c).1
  | speedUp p => exact (speedUp_cooldown p c).2.1
  | setJumpSpeed v => rfl

theorem run_jumpingInterval (es : List Event) :
    ∀ c : Character, (Event.run c es).jumpingInterval = c.jumpingInterval := by
  induction es with
  | nil => intro c; rfl
  | cons e es ih =>
    intro c
    have := ih (Event.step c e)
    rw [step_jumpingInterval] at this
    simpa [Event.run] using this

/-- C14. The cooldown interval is computed once: `onInitialize` sets it to the jump speed
divided by the length of the gravity vector, so that, the length being non-zero, interval
times length gives back the jump speed; and none of `onUpdate`, `__onMove`, `__onJump`,
`__onSpeedUp`, `setJumpSpeed`, alone or in any sequence, changes it. -/
theorem jumpingInterval_computed_once (w : World) (c : Character) (e : Event)
    (es : List Event) (hg : w.gravity.length w.sqrt ≠ 0) :
    (c.onInitialize w).jumpingInterval = c.jumpSpeed / w.gravity.length w.sqrt ∧
    (c.onInitialize w).jumpingInterval * w.gravity.length w.sqrt = c.jumpSpeed ∧
    (c.onInitialize w).jumpSpeed = c.jumpSpeed ∧
    (Event.step c e).jumpingInterval = c.jumpingInterval ∧
    (Event.run c es).jumpingInterval = c.jumpingInterval := by
  refine ⟨rfl, ?_, rfl, step_jumpingInterval c e, run_jumpingInterval es c⟩
  simp only [onInitialize]
  field_simp

/-- C14, on the resting sample character of jump speed 10 under gravity `(0, -9.8, 0)`: the
interval is `50/49`, and a jump followed by a tick and a change of the jump speed leaves it
there. -/
theorem jumpingInterval_computed_once_witness :
    (restingCharacter.onInitialize (sampleWorld true false)).jumpingInterval = 50 / 49 ∧
    (Event.run sampleCharacter
      [Event.jump (sampleWorld true false) true, Event.tick (sampleWorld false false) 1,
        Event.setJumpSpeed 20]).jumpingInterval = 50 / 49 := by
  have hg : (sampleWorld true false).gravity.length (sampleWorld true false).sqrt ≠ 0 := by
    norm_num [sampleWorld, Vec3.length, Vec3.length2, sampleSqrt]
  have h := jumpingInterval_computed_once (sampleWorld true false) restingCharacter
    (Event.setJumpSpeed 20) [] hg
  have h2 := jumpingInterval_computed_once (sampleWorld true false) sampleCharacter
    (Event.setJumpSpeed 20)
    [Event.jump (sampleWorld true false) true, Event.tick (sampleWorld false false) 1,
      Event.setJumpSpeed 20] hg
  refine ⟨?_, ?_⟩
  · rw [h.1]
    norm_num [restingCharacter, construct, sampleWorld, Vec3.length, Vec3.length2,
      sampleSqrt]
  · rw [h2.2.2.2.2]
    simp [sampleCharacter_eq]

theorem onUpdate_jumpSpeed (w : World) (dt : ℚ) (c : Character) :
    (onUpdate w dt c).jumpSpeed = c.jumpSpeed := by
  have hp : ∀ (t : Transform) (s : Character), (place w t s).jumpSpeed = s.jumpSpeed := by
    intro t s
    simp only [place, placeWith]
    split_ifs <;> simp
  rw [onUpdate_eq, hp, integrate, (groundOrFall_frame w dt _).2.2.2.2.2, applyIntent_eq,
    updateTimer_eq]

theorem onMove_jumpSpeed (type : MoveType) (is_pressed : Bool) (c : Character) :
    (c.__onMove type is_pressed).jumpSpeed = c.jumpSpeed := by
  simp only [__onMove]
  split_ifs <;> simp

theorem onSpeedUp_jumpSpeed (is_pressed : Bool) (c : Character) :
    (c.__onSpeedUp is_pressed).jumpSpeed = c.jumpSpeed := by
  simp only [__onSpeedUp, setCurSpeed]
  split_ifs <;> simp

theorem run_jumpSpeed (es : List Event) :
    ∀ c : Character, (Event.run c es).jumpSpeed = finalJumpSpeed c.jumpSpeed es := by
  induction es with
  | nil => intro c; rfl
  | cons e es ih =>
    intro c
    have h := ih (Event.step c e)
    cases e with
    | tick w dt => simpa [Event.run, Event.step, finalJumpSpeed, onUpdate_jumpSpeed] using h
    | move type p => simpa [Event.run, Event.step, finalJumpSpeed, onMove_jumpSpeed] using h
    | jump w p =>
      simpa [Event.run, Event.step, finalJumpSpeed, (onJump_cooldown w p c).2] using h
    | speedUp p => simpa [Event.run, Event.step, finalJumpSpeed, onSpeedUp_jumpSpeed] using h
    | setJumpSpeed v => simpa [Event.run, Event.step, finalJumpSpeed, setJumpSpeed] using h

theorem finalJumpSpeed_of_no_setter (es : List Event) :
    ∀ jump_speed : ℚ, (∀ v, Event.setJumpSpeed v ∉ es) →
      finalJumpSpeed jump_speed es = jump_speed := by
  induction es with
  | nil => intro _ _; rfl
  | cons e es ih =>
    intro js h
    have h' : ∀ v, Event.setJumpSpeed v ∉ es := fun v hv => h v (List.mem_cons_of_mem _ hv)
    cases e with
    | setJumpSpeed v => exact absurd (List.mem_cons_self _ _) (h v)
    | tick w dt => simpa [finalJumpSpeed] using ih js h'
    | move type p => simpa [finalJumpSpeed] using ih js h'
    | jump w p => simpa [finalJumpSpeed] using ih js h'
    | speedUp p => simpa [finalJumpSpeed] using ih js h'

/-- C15 as stated fails. The sample character is initialised with jump speed 10 under
gravity `(0, -9.8, 0)`, so its interval is `50/49`, the jump speed over the length of
gravity. After `setJumpSpeed(20)` the jump speed is 20 and the interval is still `50/49`,
while the jump speed over the length of gravity is `100/49`. -/
theorem stale_jumpingInterval :
    sampleCharacter = restingCharacter.onInitialize (sampleWorld true false) ∧
    sampleCharacter.jumpingInterval =
      sampleCharacter.jumpSpeed /
        (sampleWorld true false).gravity.length (sampleWorld true false).sqrt ∧
    (Event.run sampleCharacter [Event.setJumpSpeed 20]).jumpSpeed = 20 ∧
    (Event.run sampleCharacter [Event.setJumpSpeed 20]).jumpingInterval = 50 / 49 ∧
    (Event.run sampleCharacter [Event.setJumpSpeed 20]).jumpSpeed /
      (sampleWorld true false).gravity.length (sampleWorld true false).sqrt = 100 / 49 ∧
    (Event.run sampleCharacter [Event.setJumpSpeed 20]).jumpingInterval ≠
      (Event.run sampleCharacter [Event.setJumpSpeed 20]).jumpSpeed /
        (sampleWorld true false).gravity.length (sampleWorld true false).sqrt := by
  refine ⟨rfl, ?_, ?_, ?_, ?_, ?_⟩ <;>
    norm_num [Event.run, Event.step, setJumpSpeed, sampleCharacter_eq, sampleWorld,
      Vec3.length, Vec3.length2, sampleSqrt]

/-- C15, amended. In every state reached after `onInitialize`, under a gravity of non-zero
length, by any sequence of `setJumpSpeed` calls, input events and ticks, the interval is the
jump speed at `onInitialize` over the length of that gravity, and the jump speed is that of
the last `setJumpSpeed` call, or the one at `onInitialize` when there is none. So the
interval equals the current jump speed over the length of gravity exactly when the current
jump speed is the one at `onInitialize`, as it is in a sequence without a `setJumpSpeed`
call. -/
theorem jumpingInterval_consistency (w : World) (c : Character) (es : List Event)
    (hg : w.gravity.length w.sqrt ≠ 0) :
    (Event.run (c.onInitialize w) es).jumpingInterval =
      c.jumpSpeed / w.gravity.length w.sqrt ∧
    (Event.run (c.onInitialize w) es).jumpSpeed = finalJumpSpeed c.jumpSpeed es ∧
    ((Event.run (c.onInitialize w) es).jumpingInterval =
        (Event.run (c.onInitialize w) es).jumpSpeed / w.gravity.length w.sqrt ↔
      (Event.run (c.onInitialize w) es).jumpSpeed = c.jumpSpeed) ∧
    ((∀ v, Event.setJumpSpeed v ∉ es) →
      (Event.run (c.onInitialize w) es).jumpingInterval =
        (Event.run (c.onInitialize w) es).jumpSpeed / w.gravity.length w.sqrt) := by
  have h1 : (Event.run (c.onInitialize w) es).jumpingInterval =
      c.jumpSpeed / w.gravity.length w.sqrt := by
    rw [run_jumpingInterval]
    rfl
  have h2 : (Event.run (c.onInitialize w) es).jumpSpeed = finalJumpSpeed c.jumpSpeed es := by
    rw [run_jumpSpeed]
    rfl
  refine ⟨h1, h2, ?_, fun hn => ?_⟩
  · rw [h1, div_left_inj' hg]
    exact eq_comm
  · rw [h1, h2, finalJumpSpeed_of_no_setter es c.jumpSpeed hn]

/-- C15, amended, on the resting sample character initialised under gravity `(0, -9.8, 0)`:
after a jump, a tick and `setJumpSpeed(10)`, which repeats the jump speed of the
construction, the interval `50/49` is the jump speed over the length of gravity. -/
theorem jumpingInterval_consistency_witness :
    (Event.run (restingCharacter.onInitialize (sampleWorld true false))
      [Event.jump (sampleWorld true false) true, Event.tick (sampleWorld false false) 1,
        Event.setJumpSpeed 10]).jumpingInterval = 50 / 49 ∧
    (Event.run (restingCharacter.onInitialize (sampleWorld true false))
      [Event.jump (sampleWorld true false) true, Event.tick (sampleWorld false false) 1,
        Event.setJumpSpeed 10]).jumpingInterval =
      (Event.run (restingCharacter.onInitialize (sampleWorld true false))
        [Event.jump (sampleWorld true false) true, Event.tick (sampleWorld false false) 1,
          Event.setJumpSpeed 10]).jumpSpeed /
        (sampleWorld true false).gravity.length (sampleWorld true false).sqrt := by
  have hg : (sampleWorld true false).gravity.length (sampleWorld true false).sqrt ≠ 0 := by
    norm_num [sampleWorld, Vec3.length, Vec3.length2, sampleSqrt]
  have h := jumpingInterval_consistency (sampleWorld true false) restingCharacter
    [Event.jump (sampleWorld true false) true, Event.tick (sampleWorld false false) 1,
      Event.setJumpSpeed 10] hg
  refine ⟨?_, h.2.2.1.2 ?_⟩
  · rw [h.1]
    norm_num [restingCharacter, construct, sampleWorld, Vec3.length, Vec3.length2,
      sampleSqrt]
  · rw [h.2.1]
    simp [finalJumpSpeed, restingCharacter, construct]

/-! ### Sounds -/

theorem land_sounds (w : World) (c : Character) :
    (land w c).walkSound = c.walkSound ∧ (land w c).runSound = c.runSound ∧
    (land w c).jumpSound = c.jumpSound := by
  simp only [land]
  split_ifs <;> simp_all

theorem groundOrFall_sounds (w : World) (dt : ℚ) (c : Character) :
    (groundOrFall w dt c).walkSound = c.walkSound ∧
    (groundOrFall w dt c).runSound = c.runSound ∧
    (groundOrFall w dt c).jumpSound = c.jumpSound := by
  simp only [groundOrFall]
  split_ifs <;> simp [land_sounds]

theorem place_sounds (w : World) (t : Transform) (c : Character) :
    (place w t c).walkSound = c.walkSound ∧ (place w t c).runSound = c.runSound ∧
    (place w t c).jumpSound = c.jumpSound ∧ (place w t c).hasSpeededUp = c.hasSpeededUp := by
  simp only [place, placeWith]
  split_ifs <;> simp

/-- A tick does not touch the three sound channels nor the sprint flag. -/
theorem onUpdate_sounds (w : World) (dt : ℚ) (c : Character) :
    (onUpdate w dt c).walkSound = c.walkSound ∧ (onUpdate w dt c).runSound = c.runSound ∧
    (onUpdate w dt c).jumpSound = c.jumpSound ∧
    (onUpdate w dt c).hasSpeededUp = c.hasSpeededUp := by
  have hp := place_sounds w (candidate w dt c) (integrate w dt c)
  have hg := groundOrFall_sounds w dt (applyIntent w (updateTimer dt c))
  have hf := (groundOrFall_frame w dt (applyIntent w (updateTimer dt c))).2.2.1
  rw [onUpdate_eq, hp.1, hp.2.1, hp.2.2.1, hp.2.2.2, integrate, hg.1, hg.2.1, hg.2.2, hf,
    applyIntent_eq, updateTimer_eq]
  exact ⟨rfl, rfl, rfl, rfl⟩

theorem onMove_of_isJumping (type : MoveType) (is_pressed : Bool) (c : Character)
    (hj : c.isJumping = true) :
    c.__onMove type is_pressed = { c with isMoving := decide (type ≠ MoveType.STOP) } := by
  simp [__onMove, hj]

theorem onMove_stop_grounded (is_pressed : Bool) (c : Character) (hj : c.isJumping = false) :
    (c.__onMove MoveType.STOP is_pressed).walkSound.playing = false ∧
    (c.__onMove MoveType.STOP is_pressed).runSound.playing = false := by
  simp [__onMove, hj, moveIntent, SoundComponent.stopSound]

/-- C16 as stated fails. The sample character that jumped while striding has its walk sound
playing. A `STOP` delivered in the air leaves it playing, and so does the landing tick that
follows, which starts with `isMoving` false and ends with the velocity and the intent at
zero. -/
theorem stop_sounds_counterexample :
    leapingCharacter.isJumping = true ∧
    (leapingCharacter.__onMove MoveType.STOP true).walkSound.playing = true ∧
    (leapingCharacter.__onMove MoveType.STOP true).isMoving = false ∧
    (onUpdate landingWorld (1 / 10)
      (leapingCharacter.__onMove MoveType.STOP true)).isJumping = false ∧
    (onUpdate landingWorld (1 / 10)
      (leapingCharacter.__onMove MoveType.STOP true)).velocity = ⟨0, 0, 0⟩ ∧
    (onUpdate landingWorld (1 / 10)
      (leapingCharacter.__onMove MoveType.STOP true)).walkSound.playing = true := by
  have hs : leapingCharacter.__onMove MoveType.STOP true =
      { leapingCharacter with isMoving := false } := by
    rw [onMove_of_isJumping _ _ _ (by simp [leapingCharacter_eq])]
    simp
  refine ⟨by simp [leapingCharacter_eq], ?_, ?_, ?_, ?_, ?_⟩
  · rw [hs]; simp [leapingCharacter_eq]
  · rw [hs]
  · rw [hs]; norm_num [leapingCharacter_eq, landingWorld, sampleWorld, onUpdate, onUpdateWith, place, placeWith, candidate, integrate, groundOrFall, land,
    applyIntent, updateTimer, newVelocity, __canMoveTo, sweep, sweepTarget, correction, correctionWith,
    possiblePosition, __canJump, eps, Vec3.normalise, Vec3.zero,
    Vec3.length, Vec3.length2, Vec3.scale, Vec3.add, Vec3.sub, Vec3.normalize, sampleSqrt,
    Quaternion.rotate, Quaternion.identity, Vec3.crossProduct, Vec3.isZero,
    MeshComponent.stopAnimation, MeshComponent.setAnimation, MeshComponent.setLoopAnimation,
    MeshComponent.playAnimation, SoundComponent.playSound, SoundComponent.stopSound]
  · rw [hs]; norm_num [leapingCharacter_eq, landingWorld, sampleWorld, onUpdate, onUpdateWith, place, placeWith, candidate, integrate, groundOrFall, land,
    applyIntent, updateTimer, newVelocity, __canMoveTo, sweep, sweepTarget, correction, correctionWith,
    possiblePosition, __canJump, eps, Vec3.normalise, Vec3.zero,
    Vec3.length, Vec3.length2, Vec3.scale, Vec3.add, Vec3.sub, Vec3.normalize, sampleSqrt,
    Quaternion.rotate, Quaternion.identity, Vec3.crossProduct, Vec3.isZero,
    MeshComponent.stopAnimation, MeshComponent.setAnimation, MeshComponent.setLoopAnimation,
    MeshComponent.playAnimation, SoundComponent.playSound, SoundComponent.stopSound]
  · rw [(onUpdate_sounds _ _ _).1, hs]; simp [leapingCharacter_eq]

/-- C16, amended. For every state with `isJumping` false, after `__onMove(STOP, _)` neither
the walk sound nor the run sound is playing. For a state with `isJumping` true,
`__onMove(STOP, _)` leaves both sounds as they were; and every tick, a landing tick with
idle intent included, leaves both sounds as they were. -/
theorem movement_stop_sounds (w : World) (dt : ℚ) (is_pressed : Bool) (c : Character) :
    (c.isJumping = false →
      (c.__onMove MoveType.STOP is_pressed).walkSound.playing = false ∧
      (c.__onMove MoveType.STOP is_pressed).runSound.playing = false) ∧
    (c.isJumping = true →
      (c.__onMove MoveType.STOP is_pressed).walkSound = c.walkSound ∧
      (c.__onMove MoveType.STOP is_pressed).runSound = c.runSound) ∧
    (onUpdate w dt c).walkSound = c.walkSound ∧ (onUpdate w dt c).runSound = c.runSound := by
  refine ⟨onMove_stop_grounded is_pressed c, fun hj => ?_, (onUpdate_sounds w dt c).1,
    (onUpdate_sounds w dt c).2.1⟩
  rw [onMove_of_isJumping _ _ _ hj]
  exact ⟨rfl, rfl⟩

/-- C16, amended, on the walking sample character, whose walk sound is playing: a `STOP` on
the ground silences it. -/
theorem movement_stop_sounds_witness :
    walkingCharacter.walkSound.playing = true ∧
    (walkingCharacter.__onMove MoveType.STOP false).walkSound.playing = false ∧
    (walkingCharacter.__onMove MoveType.STOP false).runSound.playing = false :=
  have h := (movement_stop_sounds (sampleWorld true false) 0 false walkingCharacter).1
    (by simp [walkingCharacter_eq])
  ⟨by simp [walkingCharacter_eq], h.1, h.2⟩

theorem onJump_sounds (w : World) (is_pressed : Bool) (c : Character) :
    (c.__onJump w is_pressed).walkSound = c.walkSound ∧
    (c.__onJump w is_pressed).runSound = c.runSound ∧
    (c.__onJump w is_pressed).hasSpeededUp = c.hasSpeededUp := by
  simp only [__onJump]
  split_ifs <;> simp

theorem onMove_SoundInv (type : MoveType) (is_pressed : Bool) (c : Character)
    (h : SoundInv c) : SoundInv (c.__onMove type is_pressed) := by
  obtain ⟨mv, v, j, m, hs, js, ji, t, cur, orig, u, wt, mesh, ws, jsnd, rs⟩ := c
  obtain ⟨h1, h2⟩ := h
  simp only at h1 h2
  cases j
  · cases type <;> cases hs <;>
      simp_all [SoundInv, __onMove, moveIntent, SoundComponent.playSound,
        SoundComponent.stopSound]
  · simpa [SoundInv, __onMove] using ⟨h1, h2⟩

theorem onSpeedUp_SoundInv (is_pressed : Bool) (c : Character) (h : SoundInv c)
    (hg : (c.isJumping = false ∧ c.isMoving = true) ∨
      ((is_pressed = true → c.walkSound.playing = false) ∧
        (is_pressed = false → c.runSound.playing = false))) :
    SoundInv (c.__onSpeedUp is_pressed) := by
  obtain ⟨mv, v, j, m, hs, js, ji, t, cur, orig, u, wt, mesh, ws, jsnd, rs⟩ := c
  obtain ⟨h1, h2⟩ := h
  simp only at h1 h2 hg
  cases is_pressed <;> cases j <;> cases m <;> by_cases h : cur = orig <;>
    simp_all [SoundInv, __onSpeedUp, setCurSpeed, SoundComponent.playSound,
      SoundComponent.stopSound]

theorem run_SoundInv (es : List Event) :
    ∀ c : Character, SoundInv c → sprintGated c es → SoundInv (Event.run c es) := by
  induction es with
  | nil => intro c h _; simpa [Event.run] using h
  | cons e es ih =>
    intro c h hg
    cases e with
    | tick w dt =>
      refine ih _ ?_ hg
      obtain ⟨s1, s2, _, s4⟩ := onUpdate_sounds w dt c
      simpa [SoundInv, Event.step, s1, s2, s4] using h
    | move type p => exact ih _ (onMove_SoundInv type p c h) hg
    | jump w p =>
      refine ih _ ?_ hg
      obtain ⟨s1, s2, s3⟩ := onJump_sounds w p c
      simpa [SoundInv, Event.step, s1, s2, s3] using h
    | speedUp p => exact ih _ (onSpeedUp_SoundInv p c h hg.1) hg.2
    | setJumpSpeed v =>
      refine ih _ ?_ hg
      simpa [SoundInv, Event.step, setJumpSpeed] using h

/-- C17 as stated fails. From the sample character (both locomotion sounds silent, not
jumping, not moving, not sprinting): forward press, jump, sprint press in the air, landing
tick, forward release. The walk sound started by the press was never stopped, the release
on the ground starts the run sound, and both are playing. -/
theorem sound_overlap_counterexample :
    sampleCharacter.walkSound.playing = false ∧ sampleCharacter.runSound.playing = false ∧
    sampleCharacter.isJumping = false ∧ sampleCharacter.isMoving = false ∧
    sampleCharacter.hasSpeededUp = false ∧
    (Event.run sampleCharacter sprintInAir).walkSound.playing = true ∧
    (Event.run sampleCharacter sprintInAir).runSound.playing = true := by
  have hne : MoveType.FORWARD ≠ MoveType.STOP := by decide
  refine ⟨by simp [sampleCharacter_eq], by simp [sampleCharacter_eq],
    by simp [sampleCharacter_eq], by simp [sampleCharacter_eq],
    by simp [sampleCharacter_eq], ?_, ?_⟩
  · norm_num [sprintInAir, Event.run, Event.step, sampleCharacter_eq, landingWorld, __onMove,
      moveIntent, __onJump, jumpAdmitted, __onSpeedUp, setCurSpeed, hne, sampleWorld, onUpdate, onUpdateWith, place, placeWith, candidate, integrate, groundOrFall, land,
    applyIntent, updateTimer, newVelocity, __canMoveTo, sweep, sweepTarget, correction, correctionWith,
    possiblePosition, __canJump, eps, Vec3.normalise, Vec3.zero,
    Vec3.length, Vec3.length2, Vec3.scale, Vec3.add, Vec3.sub, Vec3.normalize, sampleSqrt,
    Quaternion.rotate, Quaternion.identity, Vec3.crossProduct, Vec3.isZero,
    MeshComponent.stopAnimation, MeshComponent.setAnimation, MeshComponent.setLoopAnimation,
    MeshComponent.playAnimation, SoundComponent.playSound, SoundComponent.stopSound]
  · norm_num [sprintInAir, Event.run, Event.step, sampleCharacter_eq, landingWorld, __onMove,
      moveIntent, __onJump, jumpAdmitted, __onSpeedUp, setCurSpeed, hne, sampleWorld, onUpdate, onUpdateWith, place, placeWith, candidate, integrate, groundOrFall, land,
    applyIntent, updateTimer, newVelocity, __canMoveTo, sweep, sweepTarget, correction, correctionWith,
    possiblePosition, __canJump, eps, Vec3.normalise, Vec3.zero,
    Vec3.length, Vec3.length2, Vec3.scale, Vec3.add, Vec3.sub, Vec3.normalize, sampleSqrt,
    Quaternion.rotate, Quaternion.identity, Vec3.crossProduct, Vec3.isZero,
    MeshComponent.stopAnimation, MeshComponent.setAnimation, MeshComponent.setLoopAnimation,
    MeshComponent.playAnimation, SoundComponent.playSound, SoundComponent.stopSound]

/-- C17, amended. From a state in which the walk sound and the run sound are both silent,
after any sequence of move, jump and sprint events, jump-speed changes and ticks in which
every sprint event is delivered either while `isJumping` is false and `isMoving` is true, or
while the sound it turns away from (the walk sound for a press, the run sound for a
release) is silent, the walk sound and the run sound are not both playing. -/
theorem no_sound_overlap (c : Character) (es : List Event)
    (hw : c.walkSound.playing = false) (hr : c.runSound.playing = false)
    (hs : sprintGated c es) :
    ¬ ((Event.run c es).walkSound.playing = true ∧
      (Event.run c es).runSound.playing = true) := by
  have h0 : SoundInv c := ⟨by simp [hw], by simp [hr]⟩
  obtain ⟨h1, h2⟩ := run_SoundInv es c h0 hs
  rintro ⟨a, b⟩
  rw [h1 a] at h2
  exact Bool.noConfusion (h2 b)

/-- C17, amended, on the sample character: sprint press at rest, forward press, sprint
release on the ground, jump, sprint release in the air, landing tick, sprint press on the
ground; at the end the run sound is playing and the walk sound is not. -/
theorem no_sound_overlap_witness :
    (Event.run sampleCharacter sprintOnGround).runSound.playing = true ∧
    ¬ ((Event.run sampleCharacter sprintOnGround).walkSound.playing = true ∧
      (Event.run sampleCharacter sprintOnGround).runSound.playing = true) := by
  have hne : MoveType.FORWARD ≠ MoveType.STOP := by decide
  refine ⟨?_, no_sound_overlap sampleCharacter sprintOnGround (by simp [sampleCharacter_eq])
    (by simp [sampleCharacter_eq]) ?_⟩
  · norm_num [sprintOnGround, Event.run, Event.step, sampleCharacter_eq, landingWorld,
      __onMove, moveIntent, __onJump, jumpAdmitted, __onSpeedUp, setCurSpeed, hne, sampleWorld, onUpdate, onUpdateWith, place, placeWith, candidate, integrate, groundOrFall, land,
    applyIntent, updateTimer, newVelocity, __canMoveTo, sweep, sweepTarget, correction, correctionWith,
    possiblePosition, __canJump, eps, Vec3.normalise, Vec3.zero,
    Vec3.length, Vec3.length2, Vec3.scale, Vec3.add, Vec3.sub, Vec3.normalize, sampleSqrt,
    Quaternion.rotate, Quaternion.identity, Vec3.crossProduct, Vec3.isZero,
    MeshComponent.stopAnimation, MeshComponent.setAnimation, MeshComponent.setLoopAnimation,
    MeshComponent.playAnimation, SoundComponent.playSound, SoundComponent.stopSound]
  · norm_num [sprintOnGround, sprintGated, Event.step, sampleCharacter_eq, landingWorld,
      __onMove, moveIntent, __onJump, jumpAdmitted, __onSpeedUp, setCurSpeed, hne, sampleWorld, onUpdate, onUpdateWith, place, placeWith, candidate, integrate, groundOrFall, land,
    applyIntent, updateTimer, newVelocity, __canMoveTo, sweep, sweepTarget, correction, correctionWith,
    possiblePosition, __canJump, eps, Vec3.normalise, Vec3.zero,
    Vec3.length, Vec3.length2, Vec3.scale, Vec3.add, Vec3.sub, Vec3.normalize, sampleSqrt,
    Quaternion.rotate, Quaternion.identity, Vec3.crossProduct, Vec3.isZero,
    MeshComponent.stopAnimation, MeshComponent.setAnimation, MeshComponent.setLoopAnimation,
    MeshComponent.playAnimation, SoundComponent.playSound, SoundComponent.stopSound]

/-! ### The cooldown timer -/

/-- C18. Cooldown accumulation step. In a tick of duration `dt`, if `isJumping` is true at
the start, the timer after the tick is the minimum of the timer plus `dt` and the interval
plus `1e-5`; if `isJumping` is false the timer is unchanged. Hence, for `dt >= 0` and a
timer not above the clamp, the tick does not decrease the timer and leaves it at most at the
interval plus `1e-5`. -/
theorem cooldown_accumulation_step (w : World) (dt : ℚ) (c : Character) :
    (c.isJumping = true →
      (onUpdate w dt c).timeElapseAfterJumping =
        min (c.timeElapseAfterJumping + dt) (c.jumpingInterval + 1 / 100000)) ∧
    (c.isJumping = false →
      (onUpdate w dt c).timeElapseAfterJumping = c.timeElapseAfterJumping) ∧
    (0 ≤ dt → c.timeElapseAfterJumping ≤ c.jumpingInterval + 1 / 100000 →
      c.timeElapseAfterJumping ≤ (onUpdate w dt c).timeElapseAfterJumping ∧
      (onUpdate w dt c).timeElapseAfterJumping ≤ c.jumpingInterval + 1 / 100000) := by
  have h := (onUpdate_cooldown w dt c).1
  have he : eps = 1 / 100000 := rfl
  rw [he] at h
  refine ⟨fun hj => by rw [h, if_pos hj], fun hj => by rw [h, if_neg (by simp [hj])], ?_⟩
  intro hdt hle
  rw [h]
  split_ifs
  · exact ⟨le_min (by linarith) hle, min_le_right _ _⟩
  · exact ⟨le_refl _, hle⟩

/-- C18, on the sample character just after its jump: a tick of half a time unit brings the
timer to `1/2`, and a tick of two time units brings it to the clamp `50/49 + 1e-5`. -/
theorem cooldown_accumulation_step_witness :
    (onUpdate (sampleWorld false false) (1 / 2) jumpedCharacter).timeElapseAfterJumping =
      1 / 2 ∧
    (onUpdate (sampleWorld false false) 2 jumpedCharacter).timeElapseAfterJumping =
      50 / 49 + 1 / 100000 := by
  have h1 := (cooldown_accumulation_step (sampleWorld false false) (1 / 2)
    jumpedCharacter).1 (by simp [jumpedCharacter_eq])
  have h2 := (cooldown_accumulation_step (sampleWorld false false) 2
    jumpedCharacter).1 (by simp [jumpedCharacter_eq])
  rw [h1, h2]
  constructor <;> norm_num [jumpedCharacter_eq]

theorem step_ReadyInv (c : Character) (e : Event) (h : ReadyInv c) :
    ReadyInv (Event.step c e) := by
  cases e with
  | tick w dt =>
    obtain ⟨u1, u2, u3⟩ := onUpdate_cooldown w dt c
    have v := updateTimer_cooldown dt c
    intro hf
    simp only [Event.step] at hf ⊢
    rw [u2, u1]
    cases hj : c.isJumping
    · simpa [hj] using h hj
    · rw [u3, hj] at hf
      have hcan : (updateTimer dt c).__canJump = true := by
        simp only [Bool.true_and, Bool.not_eq_eq_eq_not, Bool.not_false,
          Bool.and_eq_true] at hf
        exact hf.1.1
      rw [canJump_iff, v.1, v.2.1, hj] at hcan
      simpa using hcan
  | move type p =>
    obtain ⟨m1, m2, m3⟩ := move_cooldown type p c
    simpa [ReadyInv, Event.step, m1, m2, m3] using h
  | jump w p =>
    cases ha : jumpAdmitted w p c
    · simpa [Event.step, onJump_rejected w p c ha] using h
    · intro hf
      simp only [Event.step] at hf
      rw [onJump_admitted w p c ha] at hf
      exact Bool.noConfusion hf
  | speedUp p =>
    obtain ⟨m1, m2, m3⟩ := speedUp_cooldown p c
    simpa [ReadyInv, Event.step, m1, m2, m3] using h
  | setJumpSpeed v => simpa [ReadyInv, Event.step, setJumpSpeed] using h

theorem run_ReadyInv (es : List Event) :
    ∀ c : Character, ReadyInv c → ReadyInv (Event.run c es) := by
  induction es with
  | nil => intro c h; simpa [Event.run] using h
  | cons e es ih =>
    intro c h
    simpa [Event.run] using ih (Event.step c e) (step_ReadyInv c e h)

/-- A call that takes `isJumping` from true to false is a tick in ground contact with the
animation finished, after which the cooldown is over. -/
theorem step_landing_only_in_tick (c : Character) (e : Event) (hj : c.isJumping = true)
    (hf : (Event.step c e).isJumping = false) :
    ∃ w dt, e = Event.tick w dt ∧
      (c.onUpdate w dt).jumpingInterval < (c.onUpdate w dt).timeElapseAfterJumping + 1 / 100000 ∧
      w.isOnGround = true ∧ w.isAnimationStopped = true := by
  cases e with
  | tick w dt =>
    obtain ⟨u1, u2, u3⟩ := onUpdate_cooldown w dt c
    have v := updateTimer_cooldown dt c
    simp only [Event.step] at hf
    rw [u3, hj] at hf
    simp only [Bool.true_and, Bool.not_eq_eq_eq_not, Bool.not_false, Bool.and_eq_true] at hf
    have hcan := hf.1.1
    rw [canJump_iff, v.1, v.2.1] at hcan
    exact ⟨w, dt, rfl, by rw [u1, u2]; exact hcan, hf.1.2, hf.2⟩
  | move type p =>
    simp only [Event.step, (move_cooldown type p c).2.2, hj] at hf
    exact Bool.noConfusion hf
  | jump w p =>
    cases ha : jumpAdmitted w p c
    · simp only [Event.step, onJump_rejected w p c ha, hj] at hf
      exact Bool.noConfusion hf
    · simp only [Event.step] at hf
      rw [onJump_admitted w p c ha] at hf
      exact Bool.noConfusion hf
  | speedUp p =>
    simp only [Event.step, (speedUp_cooldown p c).2.2, hj] at hf
    exact Bool.noConfusion hf
  | setJumpSpeed v =>
    simp only [Event.step, setJumpSpeed, hj] at hf
    exact Bool.noConfusion hf

/-- C19. Landing never precedes cooldown expiry. A call that takes `isJumping` from true to
false is an `onUpdate` tick in which the cooldown is over (timer plus `1e-5` above the
interval), the ground-contact query answers true and the animation has finished.
Consequently, in every state reached from a state with the constructed timer `1e6` and an
interval below `1e6` (the constructed state, whose `isJumping` is false, among them),
`isJumping` false implies that the cooldown is over, and a jump press by a non-jumping
character is admitted exactly when the ground-contact query answers true. -/
theorem landing_never_precedes_cooldown (c0 : Character) (es : List Event) (w : World)
    (h1 : c0.timeElapseAfterJumping = 1000000) (h3 : c0.jumpingInterval < 1000000) :
    (∀ (c : Character) (e : Event), c.isJumping = true → (Event.step c e).isJumping = false →
      ∃ w1 dt, e = Event.tick w1 dt ∧
        (c.onUpdate w1 dt).jumpingInterval <
          (c.onUpdate w1 dt).timeElapseAfterJumping + 1 / 100000 ∧
        w1.isOnGround = true ∧ w1.isAnimationStopped = true) ∧
    ((Event.run c0 es).isJumping = false →
      (Event.run c0 es).jumpingInterval <
        (Event.run c0 es).timeElapseAfterJumping + 1 / 100000 ∧
      (jumpAdmitted w true (Event.run c0 es) = true ↔ w.isOnGround = true)) := by
  refine ⟨step_landing_only_in_tick, fun hf => ?_⟩
  have h0 : ReadyInv c0 := by
    intro _
    rw [h1]
    linarith
  have hr := run_ReadyInv es c0 h0 hf
  refine ⟨hr, ?_⟩
  rw [jumpAdmitted_iff]
  exact ⟨fun h => h.2.2, fun h => ⟨rfl, hr, h⟩⟩

/-- C19, on the sample character: after a jump and the landing tick two time units later it
is off the jump again, and its next press is admitted in ground contact. -/
theorem landing_never_precedes_cooldown_witness :
    (Event.run sampleCharacter
      [Event.jump (sampleWorld true false) true, Event.tick landingWorld 2]).isJumping =
        false ∧
    jumpAdmitted (sampleWorld true false) true (Event.run sampleCharacter
      [Event.jump (sampleWorld true false) true, Event.tick landingWorld 2]) = true := by
  have hf : (Event.run sampleCharacter
      [Event.jump (sampleWorld true false) true, Event.tick landingWorld 2]).isJumping =
        false := by
    norm_num [Event.run, Event.step, sampleCharacter_eq, landingWorld, __onJump,
      jumpAdmitted, sampleWorld, onUpdate, onUpdateWith, place, placeWith, candidate, integrate, groundOrFall, land,
    applyIntent, updateTimer, newVelocity, __canMoveTo, sweep, sweepTarget, correction, correctionWith,
    possiblePosition, __canJump, eps, Vec3.normalise, Vec3.zero,
    Vec3.length, Vec3.length2, Vec3.scale, Vec3.add, Vec3.sub, Vec3.normalize, sampleSqrt,
    Quaternion.rotate, Quaternion.identity, Vec3.crossProduct, Vec3.isZero,
    MeshComponent.stopAnimation, MeshComponent.setAnimation, MeshComponent.setLoopAnimation,
    MeshComponent.playAnimation, SoundComponent.playSound, SoundComponent.stopSound]
  have h := (landing_never_precedes_cooldown sampleCharacter
    [Event.jump (sampleWorld true false) true, Event.tick landingWorld 2]
    (sampleWorld true false) (by simp [sampleCharacter_eq])
    (by norm_num [sampleCharacter_eq])).2 hf
  exact ⟨hf, h.2.2 (by simp [sampleWorld])⟩

/-- C20. Move events during a jump. For every state with `isJumping` true, every move type
and every `is_pressed`, `__onMove` returns the state with `isMoving` set to
`type != STOP` and nothing else changed: the intent vector, the velocity, the animation and
the three sounds are as before, whatever `is_pressed` is. In particular a release of a key
other than `STOP` marks the character as moving and leaves the intent vector as the earlier
press made it. -/
theorem onMove_while_jumping (type : MoveType) (is_pressed : Bool) (c : Character)
    (hj : c.isJumping = true) :
    c.__onMove type is_pressed = { c with isMoving := decide (type ≠ MoveType.STOP) } ∧
    (c.__onMove type is_pressed).moveVector = c.moveVector ∧
    (c.__onMove type is_pressed).velocity = c.velocity ∧
    (c.__onMove type is_pressed).mesh = c.mesh ∧
    (c.__onMove type is_pressed).walkSound = c.walkSound ∧
    (c.__onMove type is_pressed).runSound = c.runSound ∧
    (c.__onMove type is_pressed).jumpSound = c.jumpSound ∧
    (c.__onMove type is_pressed).isMoving = decide (type ≠ MoveType.STOP) ∧
    (type ≠ MoveType.STOP →
      (c.__onMove type false).isMoving = true ∧
      (c.__onMove type false).moveVector = c.moveVector) := by
  have h := onMove_of_isJumping type is_pressed c hj
  have h' := onMove_of_isJumping type false c hj
  rw [h, h']
  refine ⟨rfl, rfl, rfl, rfl, rfl, rfl, rfl, rfl, fun hne => ⟨?_, rfl⟩⟩
  simpa using hne

/-- C20, on the sample character that jumped while striding with the forward key held: the
release of the key in the air leaves the intent vector at `(0, 0, -1)` and `isMoving`
true. -/
theorem onMove_while_jumping_witness :
    (leapingCharacter.__onMove MoveType.FORWARD false).moveVector = ⟨0, 0, -1⟩ ∧
    (leapingCharacter.__onMove MoveType.FORWARD false).isMoving = true := by
  have h := onMove_while_jumping MoveType.FORWARD false leapingCharacter
    (by simp [leapingCharacter_eq])
  refine ⟨?_, (h.2.2.2.2.2.2.2.2 (by decide)).1⟩
  rw [h.2.1]
  simp [leapingCharacter_eq]

end Character
end DarkCrystal
